import Mathlib

/-!
Verification of the core of the rlox tree-walking interpreter.

This file is a shallow embedding, in Lean, of the interpreter's five core
modules — the scanner (`src/scanner.rs`), the recursive-descent parser
(`src/parser.rs`), the environment (`src/environment.rs`), the AST walker
(`src/interpeter.rs`) and the `run` entry point (`src/main.rs`) — together
with theorems about the embedded definitions.

Modelling conventions, chosen once and used throughout:

* Rust's `i64` payload of `Literal::Integer` is modelled as `ℤ` together
  with an explicit two's-complement wrap `i64_wrap` applied wherever the
  source performs native `i64` arithmetic (release-mode wrap-around
  semantics of `+ - *` and unary `-`).
* Rust's `f64` payload of `Literal::Number` is modelled by the type `F64`:
  an exact rational plus the IEEE special values `inf`, `-inf` and `NaN`.
  Finite arithmetic is exact (no rounding) and `-0.0` is identified with
  `0.0`; the specification's stated non-goals exclude bit-exact
  floating-point behaviour, and no theorem below depends on rounding.
  The IEEE special cases that the interpreter can observe (division by
  zero, `NaN ≠ NaN` in `PartialEq`) are modelled faithfully.
* Mutating methods on `&mut self` receivers become state-passing
  functions; loops and recursion become structural recursion on an
  explicit fuel argument, so that every definition evaluates by `rfl`.
  Running out of fuel yields an error value that no theorem treats as a
  successful outcome.
* The `LoxData::ByValue`/`ByReference` distinction of the interpreter and
  the `Rc<Literal>` slots of the environment are an allocation-sharing
  optimisation; slots are replaced, never mutated through, so both
  collapse to plain `Literal` values here (the observable semantics are
  by-value).
* `println!` output of `print` statements is collected in an `output`
  list on the interpreter state.
-/

set_option maxRecDepth 10000

namespace Rlox

/-! ## Model of `f64` (payload of `Literal::Number`) -/

/-- Model of Rust `f64`: exact rationals plus the IEEE special values.
Finite arithmetic is exact and `-0.0` is not distinguished from `0.0`. -/
inductive F64 where
  | finite (v : ℚ)
  | inf
  | negInf
  | nan
deriving DecidableEq, Repr

/-- Negation of an `f64`. -/
def F64.neg : F64 → F64
  | .finite v => .finite (-v)
  | .inf => .negInf
  | .negInf => .inf
  | .nan => .nan

/-- Addition of `f64` values, with IEEE special-value propagation. -/
def F64.add : F64 → F64 → F64
  | .nan, _ => .nan
  | _, .nan => .nan
  | .inf, .negInf => .nan
  | .negInf, .inf => .nan
  | .inf, _ => .inf
  | _, .inf => .inf
  | .negInf, _ => .negInf
  | _, .negInf => .negInf
  | .finite a, .finite b => .finite (a + b)

/-- Subtraction of `f64` values: `a - b = a + (-b)`. -/
def F64.sub (a b : F64) : F64 := F64.add a (F64.neg b)

/-- Multiplication of `f64` values, with IEEE special-value propagation. -/
def F64.mul : F64 → F64 → F64
  | .nan, _ => .nan
  | _, .nan => .nan
  | .finite a, .finite b => .finite (a * b)
  | .inf, .inf => .inf
  | .inf, .negInf => .negInf
  | .negInf, .inf => .negInf
  | .negInf, .negInf => .inf
  | .inf, .finite b => if 0 < b then .inf else if b < 0 then .negInf else .nan
  | .negInf, .finite b => if 0 < b then .negInf else if b < 0 then .inf else .nan
  | .finite a, .inf => if 0 < a then .inf else if a < 0 then .negInf else .nan
  | .finite a, .negInf => if 0 < a then .negInf else if a < 0 then .inf else .nan

/-- Division of `f64` values. Division of a finite value by zero yields
`inf` or `negInf` according to the sign of the dividend, and `nan` for
`0 / 0`, exactly as IEEE division behaves on the values the interpreter
can produce (integer casts never produce `-0.0`). -/
def F64.div : F64 → F64 → F64
  | .nan, _ => .nan
  | _, .nan => .nan
  | .inf, .inf => .nan
  | .inf, .negInf => .nan
  | .negInf, .inf => .nan
  | .negInf, .negInf => .nan
  | .inf, .finite b => if b < 0 then .negInf else .inf
  | .negInf, .finite b => if b < 0 then .inf else .negInf
  | .finite _, .inf => .finite 0
  | .finite _, .negInf => .finite 0
  | .finite a, .finite b =>
    if b = 0 then (if 0 < a then .inf else if a < 0 then .negInf else .nan)
    else .finite (a / b)

/-- Equality of `f64` values as Rust's `PartialEq` computes it:
`NaN` is not equal to anything, including itself. -/
def F64.beq : F64 → F64 → Bool
  | .nan, _ => false
  | _, .nan => false
  | .finite a, .finite b => decide (a = b)
  | .inf, .inf => true
  | .negInf, .negInf => true
  | _, _ => false

/-- Strict `<` on `f64` values; comparisons involving `NaN` are false. -/
def F64.lt : F64 → F64 → Bool
  | .nan, _ => false
  | _, .nan => false
  | .finite a, .finite b => decide (a < b)
  | .negInf, .negInf => false
  | .negInf, _ => true
  | _, .negInf => false
  | .inf, _ => false
  | .finite _, .inf => true

/-- Non-strict `<=` on `f64` values; comparisons involving `NaN` are false. -/
def F64.le : F64 → F64 → Bool
  | .nan, _ => false
  | _, .nan => false
  | .finite a, .finite b => decide (a ≤ b)
  | .negInf, _ => true
  | _, .negInf => false
  | _, .inf => true
  | .inf, .finite _ => false

/-- Strict `>` on `f64` values (IEEE: `a > b` iff `b < a`). -/
def F64.gt (a b : F64) : Bool := F64.lt b a

/-- Non-strict `>=` on `f64` values (IEEE: `a >= b` iff `b <= a`). -/
def F64.ge (a b : F64) : Bool := F64.le b a

/-- Model of the Rust cast `i as f64` used by `as_f64` and by integer
division. The cast is exact here (rounding beyond 2^53 is not modelled;
no theorem depends on it). -/
def F64.ofInt (i : ℤ) : F64 := .finite i

/-- Display form of an `f64`, standing in for Rust's `{}` formatting of
floats. The exact decimal rendering is abstracted; no theorem inspects
printed floats. -/
def F64.display : F64 → String
  | .finite v => if v.den = 1 then toString v.num else toString v.num ++ "/" ++ toString v.den
  | .inf => "inf"
  | .negInf => "-inf"
  | .nan => "NaN"

/-! ## Runtime values (`src/data/literals.rs`) -/

/-- The `Literal` enum of `src/data/literals.rs`: runtime values and
literal token payloads. -/
inductive Literal where
  | Identifier (s : String)
  | StringT (s : String)
  | Integer (i : ℤ)
  | Number (n : F64)
  | True
  | False
  | Nil
deriving DecidableEq, Repr

/-- Rust's `derive(PartialEq)` on `Literal`: structural equality, with the
`Number` payloads compared by `f64` `PartialEq` (so `NaN ≠ NaN`). -/
def literal_eq : Literal → Literal → Bool
  | .Identifier a, .Identifier b => decide (a = b)
  | .StringT a, .StringT b => decide (a = b)
  | .Integer a, .Integer b => decide (a = b)
  | .Number a, .Number b => F64.beq a b
  | .True, .True => true
  | .False, .False => true
  | .Nil, .Nil => true
  | _, _ => false

/-- The `fmt::Display` impl of `Literal` (`src/data/literals.rs`). -/
def Literal.display : Literal → String
  | .Identifier s => "id:" ++ s
  | .StringT s => s
  | .Integer i => toString i
  | .Number n => F64.display n
  | .True => "true"
  | .False => "false"
  | .Nil => "nil"

/-- The `derive(Debug)` form of `Literal`, used in runtime error
messages such as `cannot negate {:?}`. -/
def Literal.debug : Literal → String
  | .Identifier s => "Identifier(\"" ++ s ++ "\")"
  | .StringT s => "StringT(\"" ++ s ++ "\")"
  | .Integer i => "Integer(" ++ toString i ++ ")"
  | .Number n => "Number(" ++ F64.display n ++ ")"
  | .True => "True"
  | .False => "False"
  | .Nil => "Nil"

/-! ## Tokens (`src/data/tokens.rs`) and line metadata (`src/data/meta.rs`) -/

/-- The `Token` enum of `src/data/tokens.rs`. -/
inductive Token where
  | LeftParen
  | RightParen
  | LeftBrace
  | RightBrace
  | Comma
  | Dot
  | Minus
  | Plus
  | Semicolon
  | Slash
  | Star
  | Question
  | Colon
  | Bang
  | BangEqual
  | Equal
  | EqualEqual
  | Greater
  | GreaterEqual
  | Lesser
  | LesserEqual
  | Literal (l : Literal)
  | And
  | Class
  | Else
  | Fun
  | For
  | If
  | Or
  | Print
  | Return
  | Super
  | This
  | Var
  | While
  | EOF
deriving DecidableEq, Repr

/-- `Token::is_value` from `src/data/tokens.rs`. -/
def Token.is_value : Token → Bool
  | .Literal _ => true
  | _ => false

/-- `Token::is_operator` from `src/data/tokens.rs` (lines 61-68). -/
def Token.is_operator : Token → Bool
  | .Bang | .BangEqual | .Equal | .EqualEqual | .Greater | .GreaterEqual => true
  | .Lesser | .LesserEqual | .Star | .Slash | .Plus | .Minus => true
  | _ => false

/-- The `fmt::Display` impl of `Token` (`src/data/tokens.rs`). -/
def Token.display : Token → String
  | .LeftParen => "("
  | .RightParen => ")"
  | .LeftBrace => "\x7b"
  | .RightBrace => "\x7d"
  | .Comma => ","
  | .Dot => "."
  | .Minus => "-"
  | .Plus => "+"
  | .Semicolon => ";"
  | .Slash => "/"
  | .Star => "*"
  | .Question => "?"
  | .Colon => ":"
  | .Bang => "!"
  | .BangEqual => "!="
  | .Equal => "="
  | .EqualEqual => "=="
  | .Greater => ">"
  | .GreaterEqual => ">="
  | .Lesser => "<"
  | .LesserEqual => "<="
  | .Literal l => l.display
  | .And => "and"
  | .Class => "class"
  | .Else => "else"
  | .Fun => "fun"
  | .For => "for"
  | .If => "if"
  | .Or => "or"
  | .Print => "print"
  | .Return => "return"
  | .Super => "super"
  | .This => "this"
  | .Var => "var"
  | .While => "while"
  | .EOF => "EOF"

/-- The generic line-annotation container `MetaContainer<T>` of
`src/data/meta.rs`. -/
structure MetaContainer (T : Type) where
  item : T
  line : Nat
deriving DecidableEq, Repr

/-- A `Token` with its source line, `TokenMeta` of `src/data/tokens.rs`. -/
abbrev TokenMeta := MetaContainer Token

/-! ## Two's-complement `i64` arithmetic -/

/-- Smallest `i64` value. -/
def i64_min : ℤ := -(2 ^ 63)

/-- Largest `i64` value. -/
def i64_max : ℤ := 2 ^ 63 - 1

/-- Wrap an integer into the signed 64-bit range, i.e. reduce it modulo
`2^64` into `[-2^63, 2^63)`. This is the release-mode (unchecked,
wrap-around) semantics of Rust's native `i64` arithmetic, which the
interpreter uses for `+ - *` and unary `-` on `Integer` operands. -/
def i64_wrap (x : ℤ) : ℤ := (x + 2 ^ 63) % 2 ^ 64 - 2 ^ 63

/-- Native `i64` addition (`left + right` in `evaluate_expression`). -/
def i64_add (a b : ℤ) : ℤ := i64_wrap (a + b)

/-- Native `i64` subtraction (`left - right` in `evaluate_expression`). -/
def i64_sub (a b : ℤ) : ℤ := i64_wrap (a - b)

/-- Native `i64` multiplication (`left * right` in `evaluate_expression`). -/
def i64_mul (a b : ℤ) : ℤ := i64_wrap (a * b)

/-- Native `i64` negation (`-i` in `evaluate_expression`). -/
def i64_neg (a : ℤ) : ℤ := i64_wrap (-a)

/-! ## Errors (`src/data/errors.rs`) -/

/-- The `ErrorData` struct of `src/data/errors.rs`. -/
structure ErrorData where
  message : String
  line_no : Nat
  location : String
deriving DecidableEq, Repr

/-- The `LoxError` enum of `src/data/errors.rs`. The `IoError` payload
(`std::io::Error`) is abstracted to its message; the core never
constructs it. -/
inductive LoxError where
  | IoError (message : String)
  | ScannerError (data : ErrorData)
deriving DecidableEq, Repr

/-- The `derive(Debug)` form of `LoxError`, used by `run` when
formatting scan errors. -/
def lox_error_debug : LoxError → String
  | .IoError m => "IoError(" ++ m ++ ")"
  | .ScannerError d =>
    "ScannerError(ErrorData \x7b message: \"" ++ d.message ++ "\", line_no: "
      ++ toString d.line_no ++ ", location: \"" ++ d.location ++ "\" \x7d)"

/-! ## Scanner (`src/scanner.rs`) -/

/-- The `Scanner` struct: source characters, cursor, current line. -/
structure Scanner where
  src : List Char
  current : Nat
  line_no : Nat
deriving DecidableEq, Repr

/-- `Scanner::new`. -/
def Scanner.new (src : String) : Scanner := ⟨src.data, 0, 1⟩

/-- `Scanner::is_end`. -/
def Scanner.is_end (s : Scanner) : Bool := decide (s.current ≥ s.src.length)

/-- `Scanner::next_char`: consume and return the next character,
advancing the line counter on a newline. -/
def Scanner.next_char (s : Scanner) : Option Char × Scanner :=
  match s.src.get? s.current with
  | none => (none, s)
  | some c =>
    (some c,
      { s with
        current := s.current + 1,
        line_no := if c = '\n' then s.line_no + 1 else s.line_no })

/-- `Scanner::peek_char`: the next character, not consumed. -/
def Scanner.peek_char (s : Scanner) : Option Char := s.src.get? s.current

/-- `Scanner::peek_char_after`: the character after next, not consumed. -/
def Scanner.peek_char_after (s : Scanner) : Option Char := s.src.get? (s.current + 1)

/-- `Scanner::find_next`: index of the next occurrence of `c` strictly
after the current position. -/
def Scanner.find_next (s : Scanner) (c : Char) : Option Nat :=
  match (s.src.drop (s.current + 1)).findIdx? (fun x => x = c) with
  | some k => some (s.current + 1 + k)
  | none => none

/-- Fuel-exhaustion scan error; unreachable for fuel larger than the
number of remaining source characters. -/
def scan_fuel_error (s : Scanner) : LoxError :=
  .ScannerError ⟨"out of fuel", s.line_no, ""⟩

/-- The body of the string-literal loop of `Scanner::match_string`
(`src/scanner.rs` lines 180-229), with the accumulator, the `is_escape`
flag and the scanner state made explicit.

Note the `'\n'` arm of the escape `match` in the source is `continue`,
which skips not only the `string.push` but also the `is_escape = false`
reset that follows it, so after a backslash-newline the loop is still in
escape mode. -/
def Scanner.string_body : Nat → Scanner → Bool → String → Except LoxError String × Scanner
  | 0, s, _, _ => (.error (scan_fuel_error s), s)
  | fuel + 1, s, is_escape, acc =>
    match s.next_char with
    | (none, s') =>
      (.error (.ScannerError ⟨"Unterminated string literal", s'.line_no, ""⟩), s')
    | (some c, s') =>
      if is_escape then
        match c with
        | 't' => Scanner.string_body fuel s' false (acc.push '\t')
        | '\\' => Scanner.string_body fuel s' false (acc.push '\\')
        | 'n' => Scanner.string_body fuel s' false (acc.push '\n')
        | 'r' => Scanner.string_body fuel s' false (acc.push '\r')
        | '\'' => Scanner.string_body fuel s' false (acc.push '\'')
        | '"' => Scanner.string_body fuel s' false (acc.push '"')
        | '\n' => Scanner.string_body fuel s' true acc
        | _ =>
          (.error (.ScannerError ⟨"Invalid escape char: " ++ c.toString, s'.line_no, ""⟩), s')
      else
        match c with
        | '\\' => Scanner.string_body fuel s' true acc
        | '"' => (.ok acc, s')
        | _ => Scanner.string_body fuel s' false (acc.push c)

/-- `Scanner::match_string`: scan a string literal (the opening `"` has
already been consumed). The resulting token carries the line on which
the literal started. -/
def Scanner.match_string (fuel : Nat) (s : Scanner) : Except LoxError TokenMeta × Scanner :=
  let start_line := s.line_no
  match Scanner.string_body fuel s false "" with
  | (.ok str, s') => (.ok ⟨.Literal (.StringT str), start_line⟩, s')
  | (.error e, s') => (.error e, s')

/-- Digit-run consumption used twice inside `Scanner::match_numeric`. -/
def Scanner.take_digits : Nat → Scanner → Scanner
  | 0, s => s
  | fuel + 1, s =>
    match s.peek_char with
    | some c => if c.isDigit then Scanner.take_digits fuel (s.next_char).2 else s
    | none => s

/-- Numeric value of a digit string. -/
def digits_to_nat (cs : List Char) : Nat :=
  cs.foldl (fun a c => a * 10 + (c.toNat - '0'.toNat)) 0

/-- Exact rational value of a decimal literal `intpart.fracpart`,
standing in for Rust's `f64` parse (rounding is not modelled). -/
def parse_decimal (cs : List Char) : ℚ :=
  let int_part := cs.takeWhile (fun c => c ≠ '.')
  let frac_part := (cs.dropWhile (fun c => c ≠ '.')).drop 1
  (digits_to_nat int_part : ℚ) + (digits_to_nat frac_part : ℚ) / ((10 : ℚ) ^ frac_part.length)

/-- `Scanner::match_numeric` (`src/scanner.rs` lines 231-282); the first
digit has already been consumed. An all-digit literal is an `Integer`,
and its `i64` parse fails (a scan error) when the value exceeds
`i64::MAX`; a literal with `.` followed by a digit is a `Number`. -/
def Scanner.match_numeric (fuel : Nat) (s : Scanner) : Except LoxError Token × Scanner :=
  let start := s.current - 1
  let s1 := Scanner.take_digits fuel s
  let (is_int, s2) :=
    match s1.peek_char with
    | some '.' =>
      if (s1.peek_char_after.map Char.isDigit).getD false
      then (false, (s1.next_char).2)
      else (true, s1)
    | _ => (true, s1)
  let s3 := Scanner.take_digits fuel s2
  let number_str := (s3.src.drop start).take (s3.current - start)
  if is_int then
    if digits_to_nat number_str ≤ 2 ^ 63 - 1 then
      (.ok (.Literal (.Integer (Int.ofNat (digits_to_nat number_str)))), s3)
    else
      (.error (.ScannerError
        ⟨"Could not parse integer from " ++ String.mk number_str, s3.line_no, ""⟩), s3)
  else
    (.ok (.Literal (.Number (.finite (parse_decimal number_str)))), s3)

/-- Identifier-character run consumption inside `Scanner::match_identifier`. -/
def can_start_identifier (c : Char) : Bool := c.isAlpha || c = '_'

/-- Characters allowed after the first character of an identifier. -/
def is_identifier_char (c : Char) : Bool := can_start_identifier c || c.isDigit

/-- Identifier-run consumption used inside `Scanner::match_identifier`. -/
def Scanner.take_ident : Nat → Scanner → Scanner
  | 0, s => s
  | fuel + 1, s =>
    match s.peek_char with
    | some c => if is_identifier_char c then Scanner.take_ident fuel (s.next_char).2 else s
    | none => s

/-- The `RESERVED_WORDS` table of `src/scanner.rs` (lines 7-28). -/
def reserved_word : String → Option Token
  | "and" => some .And
  | "class" => some .Class
  | "else" => some .Else
  | "false" => some (.Literal .False)
  | "fun" => some .Fun
  | "for" => some .For
  | "if" => some .If
  | "nil" => some (.Literal .Nil)
  | "or" => some .Or
  | "print" => some .Print
  | "return" => some .Return
  | "super" => some .Super
  | "this" => some .This
  | "true" => some (.Literal .True)
  | "var" => some .Var
  | "while" => some .While
  | _ => none

/-- `Scanner::match_identifier`; the first character has already been
consumed. Reserved words map through the fixed table, everything else
becomes an `Identifier` literal. -/
def Scanner.match_identifier (fuel : Nat) (s : Scanner) : Except LoxError Token × Scanner :=
  let start := s.current - 1
  let s1 := Scanner.take_ident fuel s
  let word := String.mk ((s1.src.drop start).take (s1.current - start))
  match reserved_word word with
  | some t => (.ok t, s1)
  | none => (.ok (.Literal (.Identifier word)), s1)

/-- Whitespace-run consumption in the `'\r' | ' ' | '\t'` arm of
`Scanner::next_token`. -/
def Scanner.skip_whitespace : Nat → Scanner → Scanner
  | 0, s => s
  | fuel + 1, s =>
    match s.peek_char with
    | some c =>
      if c = '\r' || c = ' ' || c = '\t'
      then Scanner.skip_whitespace fuel (s.next_char).2
      else s
    | none => s

/-- `Scanner::next_token` (`src/scanner.rs` lines 110-164): produce the
next token, `none` at the end of input. -/
def Scanner.next_token : Nat → Scanner → Option (Except LoxError TokenMeta) × Scanner
  | 0, s => (some (.error (scan_fuel_error s)), s)
  | fuel + 1, s =>
    match s.next_char with
    | (none, s0) => (none, s0)
    | (some c, s0) =>
      match c with
      | '(' => (some (.ok ⟨.LeftParen, s0.line_no⟩), s0)
      | ')' => (some (.ok ⟨.RightParen, s0.line_no⟩), s0)
      | '{' => (some (.ok ⟨.LeftBrace, s0.line_no⟩), s0)
      | '}' => (some (.ok ⟨.RightBrace, s0.line_no⟩), s0)
      | ',' => (some (.ok ⟨.Comma, s0.line_no⟩), s0)
      | '.' => (some (.ok ⟨.Dot, s0.line_no⟩), s0)
      | '-' => (some (.ok ⟨.Minus, s0.line_no⟩), s0)
      | '+' => (some (.ok ⟨.Plus, s0.line_no⟩), s0)
      | ';' => (some (.ok ⟨.Semicolon, s0.line_no⟩), s0)
      | '*' => (some (.ok ⟨.Star, s0.line_no⟩), s0)
      | '?' => (some (.ok ⟨.Question, s0.line_no⟩), s0)
      | ':' => (some (.ok ⟨.Colon, s0.line_no⟩), s0)
      | '!' =>
        match s0.peek_char with
        | some '=' =>
          let s1 := (s0.next_char).2
          (some (.ok ⟨.BangEqual, s1.line_no⟩), s1)
        | _ => (some (.ok ⟨.Bang, s0.line_no⟩), s0)
      | '=' =>
        match s0.peek_char with
        | some '=' =>
          let s1 := (s0.next_char).2
          (some (.ok ⟨.EqualEqual, s1.line_no⟩), s1)
        | _ => (some (.ok ⟨.Equal, s0.line_no⟩), s0)
      | '<' =>
        match s0.peek_char with
        | some '=' =>
          let s1 := (s0.next_char).2
          (some (.ok ⟨.LesserEqual, s1.line_no⟩), s1)
        | _ => (some (.ok ⟨.Lesser, s0.line_no⟩), s0)
      | '>' =>
        match s0.peek_char with
        | some '=' =>
          let s1 := (s0.next_char).2
          (some (.ok ⟨.GreaterEqual, s1.line_no⟩), s1)
        | _ => (some (.ok ⟨.Greater, s0.line_no⟩), s0)
      | '/' =>
        if s0.peek_char = some '/' then
          Scanner.next_token fuel { s0 with current := (s0.find_next '\n').getD s0.src.length }
        else (some (.ok ⟨.Slash, s0.line_no⟩), s0)
      | '\r' | ' ' | '\t' => Scanner.next_token fuel (Scanner.skip_whitespace fuel s0)
      | '\n' => Scanner.next_token fuel s0
      | '"' =>
        match Scanner.match_string fuel s0 with
        | (.ok tm, s1) => (some (.ok tm), s1)
        | (.error e, s1) => (some (.error e), s1)
      | c' =>
        if c'.isDigit then
          match Scanner.match_numeric fuel s0 with
          | (.ok tok, s1) => (some (.ok ⟨tok, s1.line_no⟩), s1)
          | (.error e, s1) => (some (.error e), s1)
        else if can_start_identifier c' then
          match Scanner.match_identifier fuel s0 with
          | (.ok tok, s1) => (some (.ok ⟨tok, s1.line_no⟩), s1)
          | (.error e, s1) => (some (.error e), s1)
        else
          (some (.error (.ScannerError
            ⟨"Unidentified character " ++ c'.toString, s0.line_no, ""⟩)), s0)

/-- The collection loop of `Scanner::scan_tokens`: all tokens and all
errors, in order. -/
def Scanner.scan_loop : Nat → Scanner → List TokenMeta × List LoxError × Scanner
  | 0, s => ([], [scan_fuel_error s], s)
  | fuel + 1, s =>
    match Scanner.next_token fuel s with
    | (none, s') => ([], [], s')
    | (some r, s') =>
      let (toks, errs, s'') := Scanner.scan_loop fuel s'
      match r with
      | .ok t => (t :: toks, errs, s'')
      | .error e => (toks, e :: errs, s'')

/-- `Scanner::scan_tokens`: the token list, or the collected scan errors
when there was at least one. -/
def Scanner.scan_tokens (fuel : Nat) (s : Scanner) : Except (List LoxError) (List TokenMeta) :=
  let (toks, errs, _) := Scanner.scan_loop fuel s
  if errs.isEmpty then .ok toks else .error errs

/-! ## AST (`src/data/ast.rs`)

`Expression` and `Statement` are `MetaContainer`s over the corresponding
item enums; the generic container is unfolded into a one-constructor
inductive here because the item types and the containers are mutually
recursive. -/

mutual
/-- A line-annotated expression node (`MetaContainer<ExpressionItem>`). -/
inductive Expression where
  | mk (item : ExpressionItem) (line : Nat)
deriving Repr

/-- The `ExpressionItem` enum of `src/data/ast.rs`. -/
inductive ExpressionItem where
  | Binary (left : Expression) (operator : Token) (right : Expression)
  | Logical (left : Expression) (operator : Token) (right : Expression)
  | Grouping (expression : Expression)
  | Literal (value : Literal)
  | Unary (operator : Token) (operand : Expression)
  | Ternary (test : Expression) (when_true : Expression) (when_false : Expression)
  | Variable (name : String)
  | Assignment (name : String) (value : Expression)
deriving Repr
end

/-- The annotated item of an expression node. -/
def Expression.item : Expression → ExpressionItem
  | .mk i _ => i

/-- The source line of an expression node. -/
def Expression.line : Expression → Nat
  | .mk _ l => l

mutual
/-- A line-annotated statement node (`MetaContainer<StatementItem>`). -/
inductive Statement where
  | mk (item : StatementItem) (line : Nat)
deriving Repr

/-- The `StatementItem` enum of `src/data/ast.rs`. -/
inductive StatementItem where
  | ExpressionStatement (e : Expression)
  | PrintStatement (e : Expression)
  | Declaration (name : String) (initializer : Expression)
  | Block (statements : List Statement)
  | IfStatement (test : Expression) (when_true : Statement) (when_false : Option Statement)
  | WhileStatement (test : Expression) (body : Statement)
deriving Repr
end

/-- The annotated item of a statement node. -/
def Statement.item : Statement → StatementItem
  | .mk i _ => i

/-- The source line of a statement node. -/
def Statement.line : Statement → Nat
  | .mk _ l => l

/-- The `fmt::Debug` impl of `ExpressionItem` (`src/data/ast.rs` lines
18-32), used in the "Invalid assignment target" parse error. Fuel bounds
the recursion depth; no theorem inspects this string. -/
def expr_debug : Nat → Expression → String
  | 0, _ => "..."
  | fuel + 1, e =>
    match e.item with
    | .Binary l op r =>
      "(" ++ op.display ++ " " ++ expr_debug fuel l ++ " " ++ expr_debug fuel r ++ ")"
    | .Logical l op r =>
      "(" ++ op.display ++ " " ++ expr_debug fuel l ++ " " ++ expr_debug fuel r ++ ")"
    | .Grouping g => "(group " ++ expr_debug fuel g ++ ")"
    | .Literal v => "(literal " ++ v.display ++ ")"
    | .Unary op o => "(" ++ op.display ++ " " ++ expr_debug fuel o ++ ")"
    | .Ternary t wt wf =>
      "(?: " ++ expr_debug fuel t ++ " " ++ expr_debug fuel wt ++ " "
        ++ expr_debug fuel wf ++ ")"
    | .Variable n => "(var " ++ n ++ ")"
    | .Assignment n v => "(set! " ++ n ++ " " ++ expr_debug fuel v ++ ")"

/-! ## Parser (`src/parser.rs`)

Each `&mut self` parser method becomes a function from a `Parser` state
to `Except String (result × Parser)`, mirroring `ParseResult`. On a
parse error the source's cursor position is unobservable — `parse`
propagates the first error and `run` resets the cursor before the
fallback parse — so errors carry no state. The `while` loops that the
`binary_expression_parser!`/`logical_expression_parser!` macros expand to
become `…_loop` helper functions. -/

/-- The `Parser` struct: the token vector and the cursor. -/
structure Parser where
  tokens : List TokenMeta
  current : Nat
deriving Repr

/-- `Parser::new`. -/
def Parser.new (src : List TokenMeta) : Parser := ⟨src, 0⟩

/-- `Parser::is_at_end`. -/
def Parser.is_at_end (p : Parser) : Bool := decide (p.current ≥ p.tokens.length)

/-- `Parser::peek`. -/
def Parser.peek (p : Parser) : Option TokenMeta :=
  if p.is_at_end then none else p.tokens.get? p.current

/-- `Parser::advance`. -/
def Parser.advance (p : Parser) : Parser := { p with current := p.current + 1 }

/-- `Parser::reset`. -/
def Parser.reset (p : Parser) : Parser := { p with current := 0 }

/-- The `match_head!` macro: does the head token match the given
(payload-free) token? All uses in the source pass unit variants, for
which the pattern match is equality. -/
def Parser.match_head (p : Parser) (t : Token) : Bool :=
  match p.peek with
  | none => false
  | some tm => decide (tm.item = t)

/-- The `consume!` macro: demand the given (payload-free) token at the
head, returning its line and advancing past it. -/
def Parser.consume (p : Parser) (expected : Token) : Except String (Nat × Parser) :=
  match p.peek with
  | none => .error ("EOF: Expected " ++ expected.display ++ " but got EOF")
  | some tm =>
    if tm.item = expected then .ok (tm.line, p.advance)
    else .error ("Line " ++ toString tm.line ++ ": Expected " ++ expected.display
      ++ " but got " ++ tm.item.display)

/-- A `consume!` whose `Result` the source drops (the two inner
semicolon consumes and the closing-parenthesis consume of
`for_statement`). The macro's `?` on `peek().ok_or(…)` still propagates
an error at EOF; otherwise the cursor advances when the token matches
and nothing happens when it does not — the mismatch `Err` is the value
the caller discards. -/
def Parser.skip_consume (p : Parser) (expected : Token) : Except String Parser :=
  match p.peek with
  | none => .error ("EOF: Expected " ++ expected.display ++ " but got EOF")
  | some _ =>
    match p.consume expected with
    | .ok (_, p') => .ok p'
    | .error _ => .ok p

/-- The scan loop of `Parser::synchronize`: discard tokens up to a
statement-starter keyword or past a `;`. -/
def Parser.sync_loop : Nat → Parser → Parser
  | 0, p => p
  | fuel + 1, p =>
    match p.peek with
    | none => p
    | some tm =>
      match tm.item with
      | .Class | .Fun | .Var | .For | .If | .While | .Print | .Return => p
      | .Semicolon => p.advance
      | _ => Parser.sync_loop fuel p.advance

/-- `Parser::synchronize`: advance one token, then re-align to a
plausible statement boundary. Called by `declaration` on error; the
re-aligned cursor is then discarded by `parse` (which propagates the
first error) and by `run` (which resets the cursor), so the error values
below do not carry it. -/
def Parser.synchronize (fuel : Nat) (p : Parser) : Parser :=
  Parser.sync_loop fuel p.advance

/-- Fuel-exhaustion parse error; unreachable for fuel larger than the
number of remaining tokens plus the grammar's nesting depth. -/
def parse_fuel_error : String := "out of fuel"

mutual
/-- `Parser::declaration`: a `var` declaration or a statement. The
source synchronises on error before returning it; see
`Parser.synchronize` for why the re-aligned cursor is not threaded. -/
def Parser.declaration : Nat → Parser → Except String (Statement × Parser)
  | 0, _ => .error parse_fuel_error
  | fuel + 1, p =>
    if p.match_head .Var then Parser.var_declaration fuel p
    else Parser.statement fuel p

/-- `Parser::var_declaration` (`var <id> = <expression>;`). -/
def Parser.var_declaration : Nat → Parser → Except String (Statement × Parser)
  | 0, _ => .error parse_fuel_error
  | fuel + 1, p => do
    let (_, p1) ← p.consume .Var
    match p1.peek with
    | none => .error "EOF: Expected identifier but got EOF"
    | some idtm =>
      match idtm.item with
      | .Literal (.Identifier name) => do
        let p2 := p1.advance
        let (_, p3) ← p2.consume .Equal
        let (expression, p4) ← Parser.expression fuel p3
        let (_, p5) ← p4.consume .Semicolon
        pure (Statement.mk (.Declaration name expression) idtm.line, p5)
      | t => .error ("EOF: Expected identifier but got " ++ t.display)

/-- `Parser::statement`: dispatch on the head token. -/
def Parser.statement : Nat → Parser → Except String (Statement × Parser)
  | 0, _ => .error parse_fuel_error
  | fuel + 1, p =>
    if p.match_head .Print then Parser.print_statement fuel p
    else if p.match_head .LeftBrace then Parser.block fuel p
    else if p.match_head .If then Parser.if_statement fuel p
    else if p.match_head .While then Parser.while_statement fuel p
    else if p.match_head .For then Parser.for_statement fuel p
    else Parser.expression_statement fuel p

/-- `Parser::while_statement`. -/
def Parser.while_statement : Nat → Parser → Except String (Statement × Parser)
  | 0, _ => .error parse_fuel_error
  | fuel + 1, p => do
    let (line, p1) ← p.consume .While
    let (_, p2) ← p1.consume .LeftParen
    let (test, p3) ← Parser.expression fuel p2
    let (_, p4) ← p3.consume .RightParen
    let (body, p5) ← Parser.statement fuel p4
    pure (Statement.mk (.WhileStatement test body) line, p5)

/-- `Parser::for_statement` (`src/parser.rs` lines 215-290). The
source's comment intends `for (<init>; <test>; <update>) <body>` to
become `{ <init>; while (<test>) { <body> <update> } }`. The two
semicolon consumes and the closing-parenthesis consume drop their
`Result` (`consume!(self, …);` with the value discarded), modelled by
`skip_consume`. Note that a present initializer already consumes its
own `;` (inside `var_declaration` or `expression_statement`), so the
first dropped consume then swallows the following `;` — when the
condition slot is empty, that is the empty-condition marker itself, and
the condition slot goes on to parse whatever comes next. -/
def Parser.for_statement : Nat → Parser → Except String (Statement × Parser)
  | 0, _ => .error parse_fuel_error
  | fuel + 1, p => do
    let (line, p1) ← p.consume .For
    let (_, p2) ← p1.consume .LeftParen
    let init_parse : Except String (Option Statement × Parser) :=
      if p2.match_head .Semicolon then
        pure (none, p2)
      else if p2.match_head .Var then do
        let (d, p') ← Parser.var_declaration fuel p2
        pure (some d, p')
      else do
        let (d, p') ← Parser.expression_statement fuel p2
        pure (some d, p')
    let (initializer, p3) ← init_parse
    let p4 ← p3.skip_consume .Semicolon
    let cond_parse : Except String (Expression × Parser) :=
      if !(p4.match_head .Semicolon) then
        Parser.expression fuel p4
      else
        pure (Expression.mk (.Literal .True) line, p4)
    let (condition, p5) ← cond_parse
    let p6 ← p5.skip_consume .Semicolon
    let incr_parse : Except String (Option Statement × Parser) :=
      if !(p6.match_head .RightParen) then do
        let (e, p') ← Parser.expression fuel p6
        pure (some (Statement.mk (.ExpressionStatement e) e.line), p')
      else
        pure (none, p6)
    let (increment, p7) ← incr_parse
    let p8 ← p7.skip_consume .RightParen
    let (for_body, p9) ← Parser.statement fuel p8
    let body :=
      match increment with
      | some inc => Statement.mk (.Block [for_body, inc]) inc.line
      | none => for_body
    let statements :=
      initializer.toList ++ [Statement.mk (.WhileStatement condition body) line]
    pure (Statement.mk (.Block statements) line, p9)

/-- `Parser::if_statement`. -/
def Parser.if_statement : Nat → Parser → Except String (Statement × Parser)
  | 0, _ => .error parse_fuel_error
  | fuel + 1, p => do
    let (start_line, p1) ← p.consume .If
    let (_, p2) ← p1.consume .LeftParen
    let (test, p3) ← Parser.expression fuel p2
    let (_, p4) ← p3.consume .RightParen
    let (when_true, p5) ← Parser.statement fuel p4
    if p5.match_head .Else then do
      let (when_false, p6) ← Parser.statement fuel p5.advance
      pure (Statement.mk (.IfStatement test when_true (some when_false)) start_line, p6)
    else
      pure (Statement.mk (.IfStatement test when_true none) start_line, p5)

/-- The declaration loop of `Parser::block`. -/
def Parser.block_loop : Nat → Parser → Except String (List Statement × Parser)
  | 0, _ => .error parse_fuel_error
  | fuel + 1, p =>
    if !(p.match_head .RightBrace) && !p.is_at_end then do
      let (d, p1) ← Parser.declaration fuel p
      let (rest, p2) ← Parser.block_loop fuel p1
      pure (d :: rest, p2)
    else
      pure ([], p)

/-- `Parser::block`. -/
def Parser.block : Nat → Parser → Except String (Statement × Parser)
  | 0, _ => .error parse_fuel_error
  | fuel + 1, p => do
    let (start_line, p1) ← p.consume .LeftBrace
    let (statements, p2) ← Parser.block_loop fuel p1
    let (_, p3) ← p2.consume .RightBrace
    pure (Statement.mk (.Block statements) start_line, p3)

/-- `Parser::print_statement`. -/
def Parser.print_statement : Nat → Parser → Except String (Statement × Parser)
  | 0, _ => .error parse_fuel_error
  | fuel + 1, p => do
    let (_, p1) ← p.consume .Print
    let (expression, p2) ← Parser.expression fuel p1
    let (_, p3) ← p2.consume .Semicolon
    pure (Statement.mk (.PrintStatement expression) expression.line, p3)

/-- `Parser::expression_statement`. -/
def Parser.expression_statement : Nat → Parser → Except String (Statement × Parser)
  | 0, _ => .error parse_fuel_error
  | fuel + 1, p => do
    let (expression, p1) ← Parser.expression fuel p
    let (_, p2) ← p1.consume .Semicolon
    pure (Statement.mk (.ExpressionStatement expression) expression.line, p2)

/-- `Parser::expression`: an expression is an assignment. -/
def Parser.expression : Nat → Parser → Except String (Expression × Parser)
  | 0, _ => .error parse_fuel_error
  | fuel + 1, p => Parser.assigment fuel p

/-- `Parser::assigment` (sic): `<id> = <assignment> | <ternary>`, with
assignment-target validation at the `=` token's line. -/
def Parser.assigment : Nat → Parser → Except String (Expression × Parser)
  | 0, _ => .error parse_fuel_error
  | fuel + 1, p => do
    let (lhs, p1) ← Parser.ternary fuel p
    if p1.match_head .Equal then
      match p1.peek with
      | some tm => do
        let p2 := p1.advance
        let (rhs, p3) ← Parser.assigment fuel p2
        match lhs.item with
        | .Variable name =>
          pure (Expression.mk (.Assignment name rhs) lhs.line, p3)
        | _ =>
          .error ("Line " ++ toString tm.line ++ ": Invalid assignment target: "
            ++ expr_debug fuel lhs)
      | none => .error "unreachable: match_head implies peek is some"
    else
      pure (lhs, p1)

/-- `Parser::ternary`: `<logicOr> (? <logicOr> : <logicOr>)?`. The
mistaken `token` (the `?` itself) in the missing-colon error message is
kept as in the source. -/
def Parser.ternary : Nat → Parser → Except String (Expression × Parser)
  | 0, _ => .error parse_fuel_error
  | fuel + 1, p => do
    let (first, p1) ← Parser.logical_or fuel p
    match p1.peek with
    | none => pure (first, p1)
    | some tm =>
      match tm.item with
      | .Question => do
        let (when_true, p3) ← Parser.logical_or fuel p1.advance
        match p3.peek with
        | none => .error "EOF: Expected ':' but got EOF"
        | some colontm =>
          match colontm.item with
          | .Colon => do
            let (when_false, p4) ← Parser.logical_or fuel p3.advance
            pure (Expression.mk (.Ternary first when_true when_false) tm.line, p4)
          | _ =>
            .error ("Line " ++ toString tm.line ++ ": Expected ':' but got "
              ++ tm.item.display)
      | _ => pure (first, p1)

/-- The `or` loop of `logical_expression_parser!(logical_or, …)`. -/
def Parser.logical_or_loop : Nat → Expression → Parser → Except String (Expression × Parser)
  | 0, _, _ => .error parse_fuel_error
  | fuel + 1, expr, p =>
    match p.peek with
    | none => pure (expr, p)
    | some tm =>
      match tm.item with
      | .Or => do
        let (right, p1) ← Parser.logical_and fuel p.advance
        Parser.logical_or_loop fuel
          (Expression.mk (.Logical expr .Or right) expr.line) p1
      | _ => pure (expr, p)

/-- `Parser::logical_or` (`logical_expression_parser!` over `or`). -/
def Parser.logical_or : Nat → Parser → Except String (Expression × Parser)
  | 0, _ => .error parse_fuel_error
  | fuel + 1, p => do
    let (expr, p1) ← Parser.logical_and fuel p
    Parser.logical_or_loop fuel expr p1

/-- The `and` loop of `logical_expression_parser!(logical_and, …)`. -/
def Parser.logical_and_loop : Nat → Expression → Parser → Except String (Expression × Parser)
  | 0, _, _ => .error parse_fuel_error
  | fuel + 1, expr, p =>
    match p.peek with
    | none => pure (expr, p)
    | some tm =>
      match tm.item with
      | .And => do
        let (right, p1) ← Parser.equality fuel p.advance
        Parser.logical_and_loop fuel
          (Expression.mk (.Logical expr .And right) expr.line) p1
      | _ => pure (expr, p)

/-- `Parser::logical_and` (`logical_expression_parser!` over `and`). -/
def Parser.logical_and : Nat → Parser → Except String (Expression × Parser)
  | 0, _ => .error parse_fuel_error
  | fuel + 1, p => do
    let (expr, p1) ← Parser.equality fuel p
    Parser.logical_and_loop fuel expr p1

/-- The operator loop of `binary_expression_parser!(equality, …)`. -/
def Parser.equality_loop : Nat → Expression → Parser → Except String (Expression × Parser)
  | 0, _, _ => .error parse_fuel_error
  | fuel + 1, expr, p =>
    match p.peek with
    | none => pure (expr, p)
    | some tm =>
      match tm.item with
      | .EqualEqual | .BangEqual => do
        let (right, p1) ← Parser.comparison fuel p.advance
        Parser.equality_loop fuel
          (Expression.mk (.Binary expr tm.item right) expr.line) p1
      | _ => pure (expr, p)

/-- `Parser::equality` (`== !=` over comparisons). -/
def Parser.equality : Nat → Parser → Except String (Expression × Parser)
  | 0, _ => .error parse_fuel_error
  | fuel + 1, p => do
    let (expr, p1) ← Parser.comparison fuel p
    Parser.equality_loop fuel expr p1

/-- The operator loop of `binary_expression_parser!(comparison, …)`. -/
def Parser.comparison_loop : Nat → Expression → Parser → Except String (Expression × Parser)
  | 0, _, _ => .error parse_fuel_error
  | fuel + 1, expr, p =>
    match p.peek with
    | none => pure (expr, p)
    | some tm =>
      match tm.item with
      | .Greater | .GreaterEqual | .Lesser | .LesserEqual => do
        let (right, p1) ← Parser.addition fuel p.advance
        Parser.comparison_loop fuel
          (Expression.mk (.Binary expr tm.item right) expr.line) p1
      | _ => pure (expr, p)

/-- `Parser::comparison` (`> >= < <=` over additions). -/
def Parser.comparison : Nat → Parser → Except String (Expression × Parser)
  | 0, _ => .error parse_fuel_error
  | fuel + 1, p => do
    let (expr, p1) ← Parser.addition fuel p
    Parser.comparison_loop fuel expr p1

/-- The operator loop of `binary_expression_parser!(addition, …)`. -/
def Parser.addition_loop : Nat → Expression → Parser → Except String (Expression × Parser)
  | 0, _, _ => .error parse_fuel_error
  | fuel + 1, expr, p =>
    match p.peek with
    | none => pure (expr, p)
    | some tm =>
      match tm.item with
      | .Plus | .Minus => do
        let (right, p1) ← Parser.multiplication fuel p.advance
        Parser.addition_loop fuel
          (Expression.mk (.Binary expr tm.item right) expr.line) p1
      | _ => pure (expr, p)

/-- `Parser::addition` (`+ -` over multiplications). -/
def Parser.addition : Nat → Parser → Except String (Expression × Parser)
  | 0, _ => .error parse_fuel_error
  | fuel + 1, p => do
    let (expr, p1) ← Parser.multiplication fuel p
    Parser.addition_loop fuel expr p1

/-- The operator loop of `binary_expression_parser!(multiplication, …)`. -/
def Parser.multiplication_loop : Nat → Expression → Parser → Except String (Expression × Parser)
  | 0, _, _ => .error parse_fuel_error
  | fuel + 1, expr, p =>
    match p.peek with
    | none => pure (expr, p)
    | some tm =>
      match tm.item with
      | .Slash | .Star => do
        let (right, p1) ← Parser.unary fuel p.advance
        Parser.multiplication_loop fuel
          (Expression.mk (.Binary expr tm.item right) expr.line) p1
      | _ => pure (expr, p)

/-- `Parser::multiplication` (`* /` over unaries). -/
def Parser.multiplication : Nat → Parser → Except String (Expression × Parser)
  | 0, _ => .error parse_fuel_error
  | fuel + 1, p => do
    let (expr, p1) ← Parser.unary fuel p
    Parser.multiplication_loop fuel expr p1

/-- `Parser::unary` (`src/parser.rs` lines 448-476): `+`/`-` prefix, the
invalid-prefix-operator diagnostic (the speculative `primary` consume of
the attempted right operand only moves the cursor, which the error path
discards), or a primary. -/
def Parser.unary : Nat → Parser → Except String (Expression × Parser)
  | 0, _ => .error parse_fuel_error
  | fuel + 1, p =>
    match p.peek with
    | none => .error "EOF: No more tokens while parsing a unary expression"
    | some tm =>
      match tm.item with
      | .Plus | .Minus => do
        let (right, p1) ← Parser.unary fuel p.advance
        pure (Expression.mk (.Unary tm.item right) tm.line, p1)
      | t =>
        if t.is_operator then
          .error ("Line " ++ toString tm.line ++ ": " ++ t.display
            ++ " operator requires left operand")
        else Parser.primary fuel p

/-- `Parser::primary`: a literal (identifiers become `Variable` nodes),
or a parenthesised expression. -/
def Parser.primary : Nat → Parser → Except String (Expression × Parser)
  | 0, _ => .error parse_fuel_error
  | fuel + 1, p =>
    match p.peek with
    | none => .error "EOF: No more tokens while parsing a primary expression"
    | some tm =>
      match tm.item with
      | .Literal l =>
        match l with
        | .Identifier name => pure (Expression.mk (.Variable name) tm.line, p.advance)
        | _ => pure (Expression.mk (.Literal l) tm.line, p.advance)
      | .LeftParen => do
        let (expr, p1) ← Parser.expression fuel p.advance
        match p1.peek with
        | some ntm =>
          match ntm.item with
          | .RightParen => pure (expr, p1.advance)
          | _ => .error ("Line " ++ toString tm.line
            ++ ": Expected closing parenthesis for expression")
        | none => .error ("Line " ++ toString tm.line
          ++ ": Expected closing parenthesis for expression")
      | t => .error ("Line " ++ toString tm.line ++ ": Failed to parse " ++ t.display
        ++ "; expected expression")
end

/-- `Parser::parse`: the full program, one declaration at a time; the
first parse error is returned. -/
def Parser.parse : Nat → Parser → Except String (List Statement × Parser)
  | 0, _ => .error parse_fuel_error
  | fuel + 1, p =>
    if p.is_at_end then .ok ([], p)
    else do
      let (s, p1) ← Parser.declaration fuel p
      let (rest, p2) ← Parser.parse fuel p1
      pure (s :: rest, p2)

/-- `Parser::parse_top_level_expression` (`src/parser.rs` lines
117-120): the whole input as one expression, wrapped in an implicit
`PrintStatement` with synthesised line `1`. -/
def Parser.parse_top_level_expression (fuel : Nat) (p : Parser) :
    Except String (List Statement × Parser) :=
  match fuel with
  | 0 => .error parse_fuel_error
  | fuel + 1 => do
    let (expr, p1) ← Parser.expression fuel p
    pure ([Statement.mk (.PrintStatement expr) 1], p1)

/-! ## Environment (`src/environment.rs`)

A scope is an association list standing in for `HashMap<String,
Rc<Literal>>`; `Scope.insert` replaces an existing binding in place, as
`HashMap::insert` does, so that the number and order of scopes — the
observable structure — match the source exactly. The `Rc` slots collapse
to values (slots are replaced, never mutated through). -/

/-- One scope: a name-to-value table. -/
abbrev Scope := List (String × Literal)

/-- `HashMap::insert`: replace the binding if the key is present,
otherwise add it. -/
def Scope.insert (scope : Scope) (name : String) (value : Literal) : Scope :=
  if scope.any (fun kv => kv.1 = name) then
    scope.map (fun kv => if kv.1 = name then (name, value) else kv)
  else
    (name, value) :: scope

/-- The `Environment` struct: a stack of scopes, innermost first
(`LinkedList::push_front`). -/
structure Environment where
  stack : List Scope
deriving Repr

/-- `Environment::new`: one (global) scope. -/
def Environment.new : Environment := ⟨[[]]⟩

/-- `Environment::fork`: push a fresh empty scope. -/
def Environment.fork (env : Environment) : Environment :=
  ⟨[] :: env.stack⟩

/-- `Environment::join`: pop the innermost scope; an error if the stack
is empty. -/
def Environment.join (env : Environment) : Except String Environment :=
  match env.stack with
  | [] => .error "Attempted to join in a non-forked environment"
  | _ :: rest => .ok ⟨rest⟩

/-- `Environment::define`: insert into the innermost scope,
unconditionally. On an empty stack the source's
`front_mut().map(…)` silently does nothing. -/
def Environment.define (env : Environment) (name : String) (value : Literal) : Environment :=
  match env.stack with
  | [] => env
  | front :: rest => ⟨Scope.insert front name value :: rest⟩

/-- The scope walk of `Environment::get`. -/
def Environment.get_in : List Scope → String → Option Literal
  | [], _ => none
  | sc :: rest, name =>
    match sc.find? (fun kv => kv.1 = name) with
    | some kv => some kv.2
    | none => Environment.get_in rest name

/-- `Environment::get`: the binding in the innermost scope that has one. -/
def Environment.get (env : Environment) (name : String) : Option Literal :=
  Environment.get_in env.stack name

/-- The scope walk of `Environment::assign_reference`: replace the
binding in the innermost scope that contains the name. -/
def Environment.assign_in : List Scope → String → Literal → Option (List Scope)
  | [], _, _ => none
  | sc :: rest, name, value =>
    if sc.any (fun kv => kv.1 = name) then
      some (Scope.insert sc name value :: rest)
    else
      match Environment.assign_in rest name value with
      | some rest' => some (sc :: rest')
      | none => none

/-- `Environment::assign` / `assign_reference`: replace an existing
binding, returning the newly assigned value (the source returns the new
`Rc`), or fail when no enclosing scope binds the name. -/
def Environment.assign (env : Environment) (name : String) (value : Literal) :
    Except String (Literal × Environment) :=
  match Environment.assign_in env.stack name value with
  | some stack' => .ok (value, ⟨stack'⟩)
  | none => .error ("Attempted to assign to '" ++ name ++ "' before declaration")

/-! ## Interpreter (`src/interpeter.rs`) -/

/-- The `Interpreter` struct, with an `output` list collecting what the
`println!` of `PrintStatement` writes to stdout. -/
structure Interpreter where
  environment : Environment
  output : List String
deriving Repr

/-- `Interpreter::new` (with empty output). -/
def Interpreter.new : Interpreter := ⟨Environment.new, []⟩

/-- Truthiness, `as_boolean` of `src/interpeter.rs`: `False` and `Nil`
are false, everything else (identifiers included) is true. -/
def as_boolean : Literal → Bool
  | .False => false
  | .Nil => false
  | .Identifier _ => true
  | _ => true

/-- Negated truthiness, `negate` of `src/interpeter.rs`. -/
def negate (l : Literal) : Bool := !as_boolean l

/-- `from_boolean` of `src/interpeter.rs`. -/
def from_boolean (b : Bool) : Literal := if b then .True else .False

/-- `as_f64` of `src/interpeter.rs`: widen a numeric operand to `f64`.
The source panics on non-numeric input; every call site first checks
that both operands are `Integer` or `Number`, so the `nan` fallback here
is unreachable. -/
def as_f64 : Literal → F64
  | .Integer i => F64.ofInt i
  | .Number n => n
  | _ => F64.nan

/-- The "cannot be applied" runtime error, reported with the line of the
left operand. -/
def cannot_apply (line : Nat) (op : Token) : String :=
  "Line " ++ toString line ++ ": " ++ op.display ++ " cannot be applied to the given types"

/-- The operator match of `evaluate_expression` for `Binary` nodes
(`src/interpeter.rs` lines 171-285), factored out as a pure function: in
the source that match reads only the operator, the two evaluated operand
values and the line of the left operand. -/
def binary_op (line : Nat) (operator : Token) (l r : Literal) : Except String Literal :=
  match operator with
  | .Star =>
    match l, r with
    | .Integer a, .Integer b => .ok (.Integer (i64_mul a b))
    | .Integer _, .Number _ | .Number _, .Integer _ | .Number _, .Number _ =>
      .ok (.Number (F64.mul (as_f64 l) (as_f64 r)))
    | _, _ => .error (cannot_apply line .Star)
  | .Minus =>
    match l, r with
    | .Integer a, .Integer b => .ok (.Integer (i64_sub a b))
    | .Integer _, .Number _ | .Number _, .Integer _ | .Number _, .Number _ =>
      .ok (.Number (F64.sub (as_f64 l) (as_f64 r)))
    | _, _ => .error (cannot_apply line .Minus)
  | .Plus =>
    match l, r with
    | .Integer a, .Integer b => .ok (.Integer (i64_add a b))
    | .Integer _, .Number _ | .Number _, .Integer _ | .Number _, .Number _ =>
      .ok (.Number (F64.add (as_f64 l) (as_f64 r)))
    | .StringT a, .StringT b => .ok (.StringT (a ++ b))
    | .StringT a, _ => .ok (.StringT (a ++ Literal.display r))
    | _, _ => .error (cannot_apply line .Plus)
  | .Slash =>
    match l, r with
    | .Integer a, .Integer b => .ok (.Number (F64.div (F64.ofInt a) (F64.ofInt b)))
    | .Integer _, .Number _ | .Number _, .Integer _ | .Number _, .Number _ =>
      .ok (.Number (F64.div (as_f64 l) (as_f64 r)))
    | _, _ => .error (cannot_apply line .Slash)
  | .Greater =>
    match l, r with
    | .Integer a, .Integer b => .ok (from_boolean (decide (a > b)))
    | .Integer _, .Number _ | .Number _, .Integer _ | .Number _, .Number _ =>
      .ok (from_boolean (F64.gt (as_f64 l) (as_f64 r)))
    | _, _ => .error (cannot_apply line .Greater)
  | .GreaterEqual =>
    match l, r with
    | .Integer a, .Integer b => .ok (from_boolean (decide (a ≥ b)))
    | .Integer _, .Number _ | .Number _, .Integer _ | .Number _, .Number _ =>
      .ok (from_boolean (F64.ge (as_f64 l) (as_f64 r)))
    | _, _ => .error (cannot_apply line .GreaterEqual)
  | .Lesser =>
    match l, r with
    | .Integer a, .Integer b => .ok (from_boolean (decide (a < b)))
    | .Integer _, .Number _ | .Number _, .Integer _ | .Number _, .Number _ =>
      .ok (from_boolean (F64.lt (as_f64 l) (as_f64 r)))
    | _, _ => .error (cannot_apply line .Lesser)
  | .LesserEqual =>
    match l, r with
    | .Integer a, .Integer b => .ok (from_boolean (decide (a ≤ b)))
    | .Integer _, .Number _ | .Number _, .Integer _ | .Number _, .Number _ =>
      .ok (from_boolean (F64.le (as_f64 l) (as_f64 r)))
    | _, _ => .error (cannot_apply line .LesserEqual)
  | .EqualEqual => .ok (from_boolean (literal_eq l r))
  | .BangEqual => .ok (from_boolean (!literal_eq l r))
  | op => .error ("Line " ++ toString line ++ ": " ++ op.display ++ " is not a valid operator")

/-- The operator match of `evaluate_expression` for `Unary` nodes
(`src/interpeter.rs` lines 118-137), factored out as a pure function
over the operator, the evaluated operand and the operand's line. -/
def unary_op (operand_line : Nat) (operator : Token) (v : Literal) : Except String Literal :=
  match operator with
  | .Plus => .ok v
  | .Minus =>
    match v with
    | .Integer i => .ok (.Integer (i64_neg i))
    | .Number n => .ok (.Number (F64.neg n))
    | w => .error ("Line " ++ toString operand_line ++ ": Type Error: cannot negate " ++ w.debug)
  | .Bang => .ok (from_boolean (negate v))
  | op => .error ("Line " ++ toString operand_line ++ ": Unexpected unary operator "
    ++ op.display)

/-- `Interpreter::evaluate_expression` (`src/interpeter.rs` lines
110-327). The environment is threaded through both outcomes: mutations
(assignments) made before a later error persist, as they do through the
`&mut self` receiver. -/
def evaluate_expression : Nat → Expression → Environment → Environment × Except String Literal
  | 0, _, env => (env, .error "out of fuel")
  | fuel + 1, e, env =>
    match e.item with
    | .Grouping inner => evaluate_expression fuel inner env
    | .Literal v => (env, .ok v)
    | .Unary operator operand =>
      match evaluate_expression fuel operand env with
      | (env1, .error err) => (env1, .error err)
      | (env1, .ok v) => (env1, unary_op operand.line operator v)
    | .Logical l operator r =>
      match evaluate_expression fuel l env with
      | (env1, .error err) => (env1, .error err)
      | (env1, .ok vl) =>
        match operator with
        | .And =>
          if !as_boolean vl then (env1, .ok vl)
          else evaluate_expression fuel r env1
        | .Or =>
          if as_boolean vl then (env1, .ok vl)
          else evaluate_expression fuel r env1
        | op =>
          (env1, .error ("Line " ++ toString l.line ++ ": " ++ op.display
            ++ " is not supported as a logical operator"))
    | .Binary l operator r =>
      match evaluate_expression fuel l env with
      | (env1, .error err) => (env1, .error err)
      | (env1, .ok vl) =>
        match evaluate_expression fuel r env1 with
        | (env2, .error err) => (env2, .error err)
        | (env2, .ok vr) => (env2, binary_op l.line operator vl vr)
    | .Ternary test when_true when_false =>
      match evaluate_expression fuel test env with
      | (env1, .error err) => (env1, .error err)
      | (env1, .ok vt) =>
        if as_boolean vt then evaluate_expression fuel when_true env1
        else evaluate_expression fuel when_false env1
    | .Variable name =>
      match env.get name with
      | some v => (env, .ok v)
      | none =>
        (env, .error ("Line " ++ toString e.line ++ ": Variable '" ++ name
          ++ "' referenced before assignment"))
    | .Assignment name value =>
      match evaluate_expression fuel value env with
      | (env1, .error err) => (env1, .error err)
      | (env1, .ok v) =>
        match env1.assign name v with
        | .ok (v', env2) => (env2, .ok v')
        | .error err => (env1, .error ("Line " ++ toString e.line ++ ": " ++ err))

mutual
/-- `Interpreter::evaluate_statement` (`src/interpeter.rs` lines
51-108). The `Block` case forks, runs the children until the first
error, and always joins before propagating; the `.expect` on `join` is
modelled by the corresponding error outcome (unreachable, since the
stack was just forked). -/
def evaluate_statement : Nat → Statement → Interpreter → Interpreter × Option String
  | 0, _, i => (i, some "out of fuel")
  | fuel + 1, stmt, i =>
    match stmt.item with
    | .ExpressionStatement expr =>
      match evaluate_expression fuel expr i.environment with
      | (env1, .error e) => ({ i with environment := env1 }, some e)
      | (env1, .ok _) => ({ i with environment := env1 }, none)
    | .PrintStatement expr =>
      match evaluate_expression fuel expr i.environment with
      | (env1, .error e) => ({ i with environment := env1 }, some e)
      | (env1, .ok v) =>
        ({ i with environment := env1, output := i.output ++ [v.display] }, none)
    | .Declaration name initializer =>
      match evaluate_expression fuel initializer i.environment with
      | (env1, .error e) => ({ i with environment := env1 }, some e)
      | (env1, .ok v) => ({ i with environment := env1.define name v }, none)
    | .Block statements =>
      let i1 := { i with environment := i.environment.fork }
      let (i2, result) := run_statements fuel statements i1
      match i2.environment.join with
      | .ok env' => ({ i2 with environment := env' }, result)
      | .error _ => (i2, some "Failed to join on the environment!")
    | .IfStatement test when_true when_false =>
      match evaluate_expression fuel test i.environment with
      | (env1, .error e) => ({ i with environment := env1 }, some e)
      | (env1, .ok v) =>
        let i1 := { i with environment := env1 }
        if as_boolean v then evaluate_statement fuel when_true i1
        else
          match when_false with
          | some wf => evaluate_statement fuel wf i1
          | none => (i1, none)
    | .WhileStatement test body =>
      match evaluate_expression fuel test i.environment with
      | (env1, .error e) => ({ i with environment := env1 }, some e)
      | (env1, .ok v) =>
        let i1 := { i with environment := env1 }
        if as_boolean v then
          match evaluate_statement fuel body i1 with
          | (i2, some e) => (i2, some e)
          | (i2, none) => evaluate_statement fuel stmt i2
        else (i1, none)

/-- Sequential statement execution stopping at the first error: the
child loop of the `Block` case, and also `Interpreter::interpret`'s
`map … collect::<Result<_, _>>()`. -/
def run_statements : Nat → List Statement → Interpreter → Interpreter × Option String
  | 0, _, i => (i, some "out of fuel")
  | _ + 1, [], i => (i, none)
  | fuel + 1, s :: rest, i =>
    match evaluate_statement fuel s i with
    | (i', none) => run_statements fuel rest i'
    | (i', some e) => (i', some e)
end

/-- `Interpreter::interpret`. -/
def Interpreter.interpret (fuel : Nat) (statements : List Statement) (i : Interpreter) :
    Interpreter × Option String :=
  run_statements fuel statements i

/-! ## The `run` entry point (`src/main.rs`) -/

/-- The scan-failure message built by `run` from the collected scan
errors (`format!("{}\n{:?}", …)` folded over the list). -/
def scan_error_string (errs : List LoxError) : String :=
  errs.foldl (fun acc e => acc ++ "\n" ++ lox_error_debug e) "Failed to scan:\n"

/-- `run` (`src/main.rs` lines 65-95): scan, parse, interpret. When
parsing fails and `allow_top_level_expr` is set, the parser is `reset`
to the start of the whole token buffer and the input is re-parsed by
`parse_top_level_expression`; if that also fails, the original parse
error is returned. -/
def run (fuel : Nat) (src : String) (interp : Interpreter) (allow_top_level_expr : Bool) :
    Interpreter × Option String :=
  match Scanner.scan_tokens fuel (Scanner.new src) with
  | .error errs => (interp, some (scan_error_string errs))
  | .ok tokens =>
    let parser := Parser.new tokens
    match Parser.parse fuel parser with
    | .ok (program, _) => Interpreter.interpret fuel program interp
    | .error e =>
      if allow_top_level_expr then
        match Parser.parse_top_level_expression fuel parser.reset with
        | .ok (program, _) => Interpreter.interpret fuel program interp
        | .error _ => (interp, some e)
      else (interp, some e)

/-! ## Auxiliary predicates used by the theorems -/

/-- Does a value have the `Integer` or `Number` variant? -/
def Literal.is_numeric : Literal → Bool
  | .Integer _ => true
  | .Number _ => true
  | _ => false

/-- Does a value have the `Number` variant? -/
def Literal.is_number : Literal → Bool
  | .Number _ => true
  | _ => false

/-- Variant discriminant of a `Literal`, for stating that cross-variant
values never compare equal. -/
def Literal.variant : Literal → Nat
  | .Identifier _ => 0
  | .StringT _ => 1
  | .Integer _ => 2
  | .Number _ => 3
  | .True => 4
  | .False => 5
  | .Nil => 6

/-! ## Helper lemmas -/

/-- Inversion of a successful `Except` bind. -/
theorem except_bind_ok {α β : Type} {x : Except String α} {f : α → Except String β} {b : β} :
    x >>= f = .ok b ↔ ∃ a, x = .ok a ∧ f a = .ok b := by
  cases x with
  | error e => simp [Bind.bind, Except.bind]
  | ok a => simp [Bind.bind, Except.bind]

/-- Evaluating a `Binary` node: one unfolding step. -/
theorem eval_binary_step (fuel : Nat) (l r : Expression) (op : Token) (ln : Nat)
    (env : Environment) :
    evaluate_expression (fuel + 1) (.mk (.Binary l op r) ln) env
      = match evaluate_expression fuel l env with
        | (env1, .error err) => (env1, .error err)
        | (env1, .ok vl) =>
          match evaluate_expression fuel r env1 with
          | (env2, .error err) => (env2, .error err)
          | (env2, .ok vr) => (env2, binary_op l.line op vl vr) := rfl

/-- Evaluating a `Unary` node: one unfolding step. -/
theorem eval_unary_step (fuel : Nat) (op : Token) (operand : Expression) (ln : Nat)
    (env : Environment) :
    evaluate_expression (fuel + 1) (.mk (.Unary op operand) ln) env
      = match evaluate_expression fuel operand env with
        | (env1, .error err) => (env1, .error err)
        | (env1, .ok v) => (env1, unary_op operand.line op v) := rfl

/-- Evaluating a `Logical` node: one unfolding step. -/
theorem eval_logical_step (fuel : Nat) (l r : Expression) (op : Token) (ln : Nat)
    (env : Environment) :
    evaluate_expression (fuel + 1) (.mk (.Logical l op r) ln) env
      = match evaluate_expression fuel l env with
        | (env1, .error err) => (env1, .error err)
        | (env1, .ok vl) =>
          match op with
          | .And =>
            if !as_boolean vl then (env1, .ok vl)
            else evaluate_expression fuel r env1
          | .Or =>
            if as_boolean vl then (env1, .ok vl)
            else evaluate_expression fuel r env1
          | op' =>
            (env1, .error ("Line " ++ toString l.line ++ ": " ++ op'.display
              ++ " is not supported as a logical operator")) := rfl

/-- Modular bound: `i64_wrap` lands in the signed 64-bit range. -/
theorem i64_wrap_range (x : ℤ) : i64_min ≤ i64_wrap x ∧ i64_wrap x ≤ i64_max := by
  unfold i64_wrap i64_min i64_max
  omega

/-- Fixed-point characterisation: wrapping is the identity exactly on
the representable range. -/
theorem i64_wrap_eq_self_iff (x : ℤ) : i64_wrap x = x ↔ i64_min ≤ x ∧ x ≤ i64_max := by
  unfold i64_wrap i64_min i64_max
  omega

/-- Congruence: wrapping preserves the residue modulo `2^64`. -/
theorem i64_wrap_emod (x : ℤ) : i64_wrap x % 2 ^ 64 = x % 2 ^ 64 := by
  unfold i64_wrap
  omega

/-- Claim C10 (binary `+ - *` and unary `-` on `Integer` operands use
unchecked native `i64` arithmetic): whenever the two operand expressions
evaluate to `Integer a` and `Integer b`, the interpreter returns
`Integer (i64_wrap (a ⋄ b))` — and `Integer (i64_wrap (-a))` for unary
minus — with no error; `i64_wrap` is the identity exactly when the exact
mathematical result fits in a signed 64-bit integer, and otherwise
reduces it modulo `2^64` into that range. -/
theorem c10_integer_overflow_wraps
    (fuel : Nat) (l r : Expression) (ln : Nat) (env env1 env2 : Environment) (a b : ℤ)
    (hl : evaluate_expression fuel l env = (env1, .ok (.Integer a)))
    (hr : evaluate_expression fuel r env1 = (env2, .ok (.Integer b))) :
    (evaluate_expression (fuel + 1) (.mk (.Binary l .Plus r) ln) env
        = (env2, .ok (.Integer (i64_wrap (a + b))))
      ∧ evaluate_expression (fuel + 1) (.mk (.Binary l .Minus r) ln) env
        = (env2, .ok (.Integer (i64_wrap (a - b))))
      ∧ evaluate_expression (fuel + 1) (.mk (.Binary l .Star r) ln) env
        = (env2, .ok (.Integer (i64_wrap (a * b))))
      ∧ evaluate_expression (fuel + 1) (.mk (.Unary .Minus l) ln) env
        = (env1, .ok (.Integer (i64_wrap (-a)))))
    ∧ (∀ x : ℤ,
        (i64_wrap x = x ↔ i64_min ≤ x ∧ x ≤ i64_max)
        ∧ i64_wrap x % 2 ^ 64 = x % 2 ^ 64
        ∧ i64_min ≤ i64_wrap x ∧ i64_wrap x ≤ i64_max) := by
  constructor
  · refine ⟨?_, ?_, ?_, ?_⟩
    · rw [eval_binary_step, hl]
      dsimp only
      rw [hr]
      simp [binary_op, i64_add]
    · rw [eval_binary_step, hl]
      dsimp only
      rw [hr]
      simp [binary_op, i64_sub]
    · rw [eval_binary_step, hl]
      dsimp only
      rw [hr]
      simp [binary_op, i64_mul]
    · rw [eval_unary_step, hl]
      simp [unary_op, i64_neg]
  · intro x
    exact ⟨i64_wrap_eq_self_iff x, i64_wrap_emod x, i64_wrap_range x⟩

/-- Witness for C10 at a concrete overflowing input: `i64::MAX + 1`
evaluates to `Integer (i64_wrap (i64::MAX + 1))`, which is `i64::MIN`. -/
theorem c10_witness :
    evaluate_expression 2
        (.mk (.Binary (.mk (.Literal (.Integer (2 ^ 63 - 1))) 1) .Plus
          (.mk (.Literal (.Integer 1)) 1)) 1) Environment.new
      = (Environment.new, .ok (.Integer (i64_wrap (2 ^ 63 - 1 + 1))))
    ∧ i64_wrap (2 ^ 63 - 1 + 1) = -(2 ^ 63) := by
  constructor
  · exact (c10_integer_overflow_wraps 1 _ _ 1 _ _ _ _ _ rfl rfl).1.1
  · decide

/-- Claim C9 (`/` on two `Integer` operands never errors): both operands
are cast to `f64` first, so the quotient is always a `Number`; with a
zero right operand the payload is `inf`, `-inf` or `NaN` according to
the sign of the left operand; and for any operand values, `/` succeeds
(with a `Number`) exactly when both are numeric. -/
theorem c9_integer_division_never_errors
    (fuel : Nat) (l r : Expression) (ln : Nat) (env env1 env2 : Environment) (a b : ℤ)
    (hl : evaluate_expression fuel l env = (env1, .ok (.Integer a)))
    (hr : evaluate_expression fuel r env1 = (env2, .ok (.Integer b))) :
    evaluate_expression (fuel + 1) (.mk (.Binary l .Slash r) ln) env
      = (env2, .ok (.Number (F64.div (F64.ofInt a) (F64.ofInt b))))
    ∧ (b = 0 → F64.div (F64.ofInt a) (F64.ofInt b)
        = if 0 < a then F64.inf else if a < 0 then F64.negInf else F64.nan)
    ∧ (∀ (x y : Literal) (line : Nat),
        (∃ q, binary_op line .Slash x y = .ok (.Number q))
          ↔ (x.is_numeric ∧ y.is_numeric))
    ∧ (∀ (x y : Literal) (line : Nat), ¬(x.is_numeric ∧ y.is_numeric) →
        binary_op line .Slash x y = .error (cannot_apply line .Slash)) := by
  refine ⟨?_, ?_, ?_, ?_⟩
  · rw [eval_binary_step, hl]
    dsimp only
    rw [hr]
    simp [binary_op]
  · intro hb
    subst hb
    simp only [F64.ofInt, F64.div]
    norm_num
  · intro x y line
    cases x <;> cases y <;>
      simp [binary_op, Literal.is_numeric]
  · intro x y line h
    cases x <;> cases y <;>
      simp [binary_op, Literal.is_numeric] at h ⊢

/-- Witness for C9: `1 / 0` evaluates without error to `Number inf`. -/
theorem c9_witness :
    evaluate_expression 2
        (.mk (.Binary (.mk (.Literal (.Integer 1)) 1) .Slash
          (.mk (.Literal (.Integer 0)) 1)) 1) Environment.new
      = (Environment.new, .ok (.Number (F64.div (F64.ofInt 1) (F64.ofInt 0))))
    ∧ F64.div (F64.ofInt 1) (F64.ofInt 0) = F64.inf := by
  have h := c9_integer_division_never_errors 1
    (.mk (.Literal (.Integer 1)) 1) (.mk (.Literal (.Integer 0)) 1) 1
    Environment.new Environment.new Environment.new 1 0 rfl rfl
  refine ⟨h.1, ?_⟩
  rw [h.2.1 rfl]
  norm_num

/-- Claim C6 (equality is structural): `==` evaluates to
`from_boolean (literal_eq vl vr)` and `!=` to its negation, where
`literal_eq` is false across distinct variants and compares payloads
within a variant (`Number` payloads by `f64` equality). -/
theorem c6_structural_equality
    (fuel : Nat) (l r : Expression) (ln : Nat) (env env1 env2 : Environment)
    (vl vr : Literal)
    (hl : evaluate_expression fuel l env = (env1, .ok vl))
    (hr : evaluate_expression fuel r env1 = (env2, .ok vr)) :
    evaluate_expression (fuel + 1) (.mk (.Binary l .EqualEqual r) ln) env
      = (env2, .ok (from_boolean (literal_eq vl vr)))
    ∧ evaluate_expression (fuel + 1) (.mk (.Binary l .BangEqual r) ln) env
      = (env2, .ok (from_boolean (!literal_eq vl vr)))
    ∧ (∀ x y : Literal, x.variant ≠ y.variant → literal_eq x y = false)
    ∧ (∀ a b : ℤ, literal_eq (.Integer a) (.Integer b) = decide (a = b))
    ∧ (∀ s t : String, literal_eq (.StringT s) (.StringT t) = decide (s = t))
    ∧ (∀ s t : String, literal_eq (.Identifier s) (.Identifier t) = decide (s = t))
    ∧ (∀ x y : F64, literal_eq (.Number x) (.Number y) = F64.beq x y)
    ∧ (literal_eq .True .True = true ∧ literal_eq .False .False = true
        ∧ literal_eq .Nil .Nil = true)
    ∧ (∀ (a : ℤ) (y : F64), literal_eq (.Integer a) (.Number y) = false) := by
  refine ⟨?_, ?_, ?_, fun _ _ => rfl, fun _ _ => rfl, fun _ _ => rfl, fun _ _ => rfl,
    ⟨rfl, rfl, rfl⟩, fun _ _ => rfl⟩
  · rw [eval_binary_step, hl]
    dsimp only
    rw [hr]
    rfl
  · rw [eval_binary_step, hl]
    dsimp only
    rw [hr]
    rfl
  · intro x y h
    cases x <;> cases y <;> simp [Literal.variant] at h ⊢ <;> rfl

/-- Witness for C6: `1 == 1.0` evaluates to `False`. -/
theorem c6_witness :
    evaluate_expression 2
        (.mk (.Binary (.mk (.Literal (.Integer 1)) 1) .EqualEqual
          (.mk (.Literal (.Number (.finite 1))) 1)) 1) Environment.new
      = (Environment.new, .ok .False) := by
  have h := c6_structural_equality 1
    (.mk (.Literal (.Integer 1)) 1) (.mk (.Literal (.Number (.finite 1))) 1) 1
    Environment.new Environment.new Environment.new
    (.Integer 1) (.Number (.finite 1)) rfl rfl
  rw [h.1]
  rfl

/-- Claim C4 (unary evaluation): prefix `+` returns the operand
unchanged for every operand; prefix `-` negates an `Integer` (as a
64-bit integer, the exact negation whenever it is representable) or a
`Number`, preserving the variant, and is a runtime error on every other
operand; prefix `!` returns the truthiness negation, `True` exactly when
the operand is `False` or `Nil`. -/
theorem c4_unary_semantics
    (fuel : Nat) (e : Expression) (ln : Nat) (env env1 : Environment) (v : Literal)
    (h : evaluate_expression fuel e env = (env1, .ok v)) :
    evaluate_expression (fuel + 1) (.mk (.Unary .Plus e) ln) env = (env1, .ok v)
    ∧ (∀ i : ℤ, v = .Integer i →
        evaluate_expression (fuel + 1) (.mk (.Unary .Minus e) ln) env
          = (env1, .ok (.Integer (i64_neg i))))
    ∧ (∀ i : ℤ, i64_min < i → i ≤ i64_max → i64_neg i = -i)
    ∧ (∀ x : F64, v = .Number x →
        evaluate_expression (fuel + 1) (.mk (.Unary .Minus e) ln) env
          = (env1, .ok (.Number (F64.neg x))))
    ∧ (v.is_numeric = false →
        evaluate_expression (fuel + 1) (.mk (.Unary .Minus e) ln) env
          = (env1, .error ("Line " ++ toString e.line ++ ": Type Error: cannot negate "
              ++ v.debug)))
    ∧ evaluate_expression (fuel + 1) (.mk (.Unary .Bang e) ln) env
        = (env1, .ok (from_boolean (!as_boolean v)))
    ∧ (as_boolean v = false ↔ (v = .False ∨ v = .Nil)) := by
  refine ⟨?_, ?_, ?_, ?_, ?_, ?_, ?_⟩
  · rw [eval_unary_step, h]
    rfl
  · intro i hi
    subst hi
    rw [eval_unary_step, h]
    rfl
  · intro i hlo hhi
    unfold i64_neg i64_wrap
    unfold i64_min at hlo
    unfold i64_max at hhi
    omega
  · intro x hx
    subst hx
    rw [eval_unary_step, h]
    rfl
  · intro hv
    rw [eval_unary_step, h]
    cases v <;> simp [Literal.is_numeric] at hv ⊢ <;> rfl
  · rw [eval_unary_step, h]
    rfl
  · cases v <;> simp [as_boolean]

/-- Witness for C4: negating the string `"s"` is a runtime error, and
`!0` is `False` (zero is truthy). -/
theorem c4_witness :
    evaluate_expression 2 (.mk (.Unary .Minus (.mk (.Literal (.StringT "s")) 3)) 1)
        Environment.new
      = (Environment.new,
         .error "Line 3: Type Error: cannot negate StringT(\"s\")")
    ∧ evaluate_expression 2 (.mk (.Unary .Bang (.mk (.Literal (.Integer 0)) 1)) 1)
        Environment.new
      = (Environment.new, .ok .False) := by
  constructor
  · have h := c4_unary_semantics 1 (.mk (.Literal (.StringT "s")) 3) 1
      Environment.new Environment.new (.StringT "s") rfl
    rw [h.2.2.2.2.1 rfl]
    rfl
  · have h := c4_unary_semantics 1 (.mk (.Literal (.Integer 0)) 1) 1
      Environment.new Environment.new (.Integer 0) rfl
    rw [h.2.2.2.2.2.1]
    rfl

/-- Claim C3 (binary numeric result types): on two `Integer` operands,
`+ - *` return an `Integer` and `/` returns a `Number`; when either
operand is a `Number` and the other is `Integer` or `Number`, all four
operators return a `Number`. -/
theorem c3_binary_numeric_types
    (fuel : Nat) (l r : Expression) (ln : Nat) (env env1 env2 : Environment)
    (vl vr : Literal)
    (hl : evaluate_expression fuel l env = (env1, .ok vl))
    (hr : evaluate_expression fuel r env1 = (env2, .ok vr)) :
    (∀ a b : ℤ, vl = .Integer a → vr = .Integer b →
      (∃ k : ℤ, evaluate_expression (fuel + 1) (.mk (.Binary l .Plus r) ln) env
        = (env2, .ok (.Integer k)))
      ∧ (∃ k : ℤ, evaluate_expression (fuel + 1) (.mk (.Binary l .Minus r) ln) env
        = (env2, .ok (.Integer k)))
      ∧ (∃ k : ℤ, evaluate_expression (fuel + 1) (.mk (.Binary l .Star r) ln) env
        = (env2, .ok (.Integer k)))
      ∧ (∃ q : F64, evaluate_expression (fuel + 1) (.mk (.Binary l .Slash r) ln) env
        = (env2, .ok (.Number q))))
    ∧ (vl.is_numeric = true → vr.is_numeric = true →
       (vl.is_number = true ∨ vr.is_number = true) →
       ∀ op : Token, (op = .Plus ∨ op = .Minus ∨ op = .Star ∨ op = .Slash) →
         ∃ q : F64, evaluate_expression (fuel + 1) (.mk (.Binary l op r) ln) env
           = (env2, .ok (.Number q))) := by
  constructor
  · intro a b ha hb
    subst ha
    subst hb
    refine ⟨⟨i64_add a b, ?_⟩, ⟨i64_sub a b, ?_⟩, ⟨i64_mul a b, ?_⟩,
      ⟨F64.div (F64.ofInt a) (F64.ofInt b), ?_⟩⟩ <;>
      (rw [eval_binary_step, hl]; dsimp only; rw [hr]; rfl)
  · intro hvl hvr hnum op hop
    have hgoal : ∃ q : F64, binary_op l.line op vl vr = .ok (.Number q) := by
      obtain rfl | rfl | rfl | rfl := hop <;>
        (cases vl <;> cases vr <;>
          simp [Literal.is_numeric, Literal.is_number] at hvl hvr hnum <;>
          exact ⟨_, rfl⟩)
    obtain ⟨q, hq⟩ := hgoal
    refine ⟨q, ?_⟩
    rw [eval_binary_step, hl]
    dsimp only
    rw [hr]
    dsimp only
    rw [hq]

/-- Witness for C3: `2 * 3` is `Integer 6`, `6 / 3` is `Number 2.0`,
and `1 + 1.5` is `Number 2.5`. -/
theorem c3_witness :
    (∃ k : ℤ, evaluate_expression 2
        (.mk (.Binary (.mk (.Literal (.Integer 2)) 1) .Star
          (.mk (.Literal (.Integer 3)) 1)) 1) Environment.new
      = (Environment.new, .ok (.Integer k)))
    ∧ (∃ q : F64, evaluate_expression 2
        (.mk (.Binary (.mk (.Literal (.Integer 6)) 1) .Slash
          (.mk (.Literal (.Integer 3)) 1)) 1) Environment.new
      = (Environment.new, .ok (.Number q)))
    ∧ (∃ q : F64, evaluate_expression 2
        (.mk (.Binary (.mk (.Literal (.Integer 1)) 1) .Plus
          (.mk (.Literal (.Number (.finite (3 / 2)))) 1)) 1) Environment.new
      = (Environment.new, .ok (.Number q))) := by
  refine ⟨?_, ?_, ?_⟩
  · exact ((c3_binary_numeric_types 1 _ _ 1 _ _ _ _ _ rfl rfl).1 2 3 rfl rfl).2.2.1
  · exact ((c3_binary_numeric_types 1 _ _ 1 _ _ _ _ _ rfl rfl).1 6 3 rfl rfl).2.2.2
  · exact (c3_binary_numeric_types 1 (.mk (.Literal (.Integer 1)) 1)
      (.mk (.Literal (.Number (.finite (3 / 2)))) 1) 1 Environment.new Environment.new
      Environment.new (.Integer 1) (.Number (.finite (3 / 2))) rfl rfl).2 rfl rfl
      (Or.inr rfl) .Plus (Or.inl rfl)

/-- Claim C5 (`and`/`or` short-circuit): with the left operand evaluated
to `vl`, `and` returns `vl` itself — and the state reached after the
left operand alone, for every right operand expression — when `vl` is
falsy, and otherwise the full result of evaluating the right operand;
`or` does the same with the truthiness test flipped. No boolean coercion
is applied to either returned value. -/
theorem c5_logical_short_circuit
    (fuel : Nat) (l r : Expression) (ln : Nat) (env env1 : Environment) (vl : Literal)
    (hl : evaluate_expression fuel l env = (env1, .ok vl)) :
    (as_boolean vl = false →
      evaluate_expression (fuel + 1) (.mk (.Logical l .And r) ln) env = (env1, .ok vl))
    ∧ (as_boolean vl = true →
      evaluate_expression (fuel + 1) (.mk (.Logical l .And r) ln) env
        = evaluate_expression fuel r env1)
    ∧ (as_boolean vl = true →
      evaluate_expression (fuel + 1) (.mk (.Logical l .Or r) ln) env = (env1, .ok vl))
    ∧ (as_boolean vl = false →
      evaluate_expression (fuel + 1) (.mk (.Logical l .Or r) ln) env
        = evaluate_expression fuel r env1) := by
  refine ⟨?_, ?_, ?_, ?_⟩ <;> intro hb <;>
    rw [eval_logical_step, hl] <;> dsimp only <;> rw [hb] <;> rfl

/-- Witness for C5: `nil or "default"` evaluates to the string
`"default"` itself. -/
theorem c5_witness :
    evaluate_expression 2
        (.mk (.Logical (.mk (.Literal .Nil) 1) .Or
          (.mk (.Literal (.StringT "default")) 1)) 1) Environment.new
      = (Environment.new, .ok (.StringT "default")) := by
  have h := c5_logical_short_circuit 1
    (.mk (.Literal .Nil) 1) (.mk (.Literal (.StringT "default")) 1) 1
    Environment.new Environment.new .Nil rfl
  rw [h.2.2.2 rfl]
  rfl

/-- Replacing a binding leaves the number of scopes unchanged. -/
theorem assign_in_length (scopes : List Scope) (name : String) (value : Literal)
    (scopes' : List Scope) (h : Environment.assign_in scopes name value = some scopes') :
    scopes'.length = scopes.length := by
  induction scopes generalizing scopes' with
  | nil => simp [Environment.assign_in] at h
  | cons sc rest ih =>
    rw [Environment.assign_in] at h
    split at h
    · cases h
      simp
    · cases hrec : Environment.assign_in rest name value with
      | none => rw [hrec] at h; cases h
      | some rest' =>
        rw [hrec] at h
        cases h
        simp [ih rest' hrec]

/-- Successful or not, `Environment::assign` leaves the scope-stack
depth unchanged. -/
theorem assign_env_length (env : Environment) (name : String) (value : Literal)
    (v' : Literal) (env' : Environment) (h : env.assign name value = .ok (v', env')) :
    env'.stack.length = env.stack.length := by
  rw [Environment.assign] at h
  cases hin : Environment.assign_in env.stack name value with
  | none => rw [hin] at h; cases h
  | some stack' =>
    rw [hin] at h
    cases h
    exact assign_in_length env.stack name value stack' hin

/-- Expression evaluation never changes the scope-stack depth: variable
lookups read it and assignments replace bindings in place. -/
theorem eval_expression_env_length (fuel : Nat) :
    ∀ (e : Expression) (env : Environment),
      ((evaluate_expression fuel e env).1).stack.length = env.stack.length := by
  induction fuel with
  | zero => intro e env; rfl
  | succ n ih =>
    intro e env
    cases e with
    | mk item ln =>
      cases item with
      | Grouping inner =>
        exact ih inner env
      | Literal v => rfl
      | Unary operator operand =>
        have h1 := ih operand env
        simp only [evaluate_expression, Expression.item]
        cases h : evaluate_expression n operand env with
        | mk env1 res =>
          rw [h] at h1
          cases res <;> exact h1
      | Logical l operator r =>
        have h1 := ih l env
        simp only [evaluate_expression, Expression.item]
        cases h : evaluate_expression n l env with
        | mk env1 res =>
          rw [h] at h1
          cases res with
          | error err => exact h1
          | ok vl =>
            dsimp only
            have h2 := ih r env1
            cases operator <;> dsimp only <;> try exact h1
            · split
              · exact h1
              · exact h2.trans h1
            · split
              · exact h1
              · exact h2.trans h1
      | Binary l operator r =>
        have h1 := ih l env
        simp only [evaluate_expression, Expression.item]
        cases h : evaluate_expression n l env with
        | mk env1 res =>
          rw [h] at h1
          cases res with
          | error err => exact h1
          | ok vl =>
            dsimp only
            have h2 := ih r env1
            cases h' : evaluate_expression n r env1 with
            | mk env2 res2 =>
              rw [h'] at h2
              cases res2 <;> exact h2.trans h1
      | Ternary test when_true when_false =>
        have h1 := ih test env
        simp only [evaluate_expression, Expression.item]
        cases h : evaluate_expression n test env with
        | mk env1 res =>
          rw [h] at h1
          cases res with
          | error err => exact h1
          | ok vt =>
            dsimp only
            split
            · exact (ih when_true env1).trans h1
            · exact (ih when_false env1).trans h1
      | Variable name =>
        simp only [evaluate_expression, Expression.item]
        cases env.get name <;> rfl
      | Assignment name value =>
        have h1 := ih value env
        simp only [evaluate_expression, Expression.item]
        cases h : evaluate_expression n value env with
        | mk env1 res =>
          rw [h] at h1
          cases res with
          | error err => exact h1
          | ok v =>
            dsimp only
            cases ha : env1.assign name v with
            | error err => exact h1
            | ok pr =>
              cases pr with
              | mk v' env2 =>
                exact (assign_env_length env1 name v v' env2 ha).trans h1

/-- Statement execution never changes the scope-stack depth, on success
and on error alike: the `Block` case pops the scope it pushed on every
exit path. -/
theorem eval_statement_env_length (fuel : Nat) :
    (∀ (stmt : Statement) (i : Interpreter),
      ((evaluate_statement fuel stmt i).1).environment.stack.length
        = i.environment.stack.length)
    ∧ (∀ (stmts : List Statement) (i : Interpreter),
      ((run_statements fuel stmts i).1).environment.stack.length
        = i.environment.stack.length) := by
  induction fuel with
  | zero => exact ⟨fun _ _ => rfl, fun _ _ => rfl⟩
  | succ n ih =>
    obtain ⟨ih1, ih2⟩ := ih
    constructor
    · intro stmt i
      cases stmt with
      | mk item line =>
        cases item with
        | ExpressionStatement expr =>
          have h1 := eval_expression_env_length n expr i.environment
          simp only [evaluate_statement, Statement.item]
          cases h : evaluate_expression n expr i.environment with
          | mk env1 res =>
            rw [h] at h1
            cases res <;> exact h1
        | PrintStatement expr =>
          have h1 := eval_expression_env_length n expr i.environment
          simp only [evaluate_statement, Statement.item]
          cases h : evaluate_expression n expr i.environment with
          | mk env1 res =>
            rw [h] at h1
            cases res <;> exact h1
        | Declaration name initializer =>
          have h1 := eval_expression_env_length n initializer i.environment
          simp only [evaluate_statement, Statement.item]
          cases h : evaluate_expression n initializer i.environment with
          | mk env1 res =>
            rw [h] at h1
            cases res with
            | error err => exact h1
            | ok v =>
              show (Environment.define env1 name v).stack.length = _
              cases henv : env1.stack with
              | nil => simp [Environment.define, henv, henv ▸ h1]
              | cons front rest =>
                simp only [Environment.define, henv]
                rw [henv] at h1
                simpa using h1
        | Block statements =>
          simp only [evaluate_statement, Statement.item]
          have h2 := ih2 statements { i with environment := i.environment.fork }
          cases hrs : run_statements n statements { i with environment := i.environment.fork } with
          | mk i2 result =>
            rw [hrs] at h2
            dsimp only at h2 ⊢
            simp only [Environment.fork, List.length_cons] at h2
            cases hstk : i2.environment.stack with
            | nil => rw [hstk] at h2; simp at h2
            | cons top rest =>
              simp only [Environment.join, hstk]
              rw [hstk] at h2
              simp only [List.length_cons] at h2 ⊢
              omega
        | IfStatement test when_true when_false =>
          have h1 := eval_expression_env_length n test i.environment
          simp only [evaluate_statement, Statement.item]
          cases h : evaluate_expression n test i.environment with
          | mk env1 res =>
            rw [h] at h1
            cases res with
            | error err => exact h1
            | ok v =>
              dsimp only
              split
              · exact (ih1 when_true _).trans h1
              · cases when_false with
                | some wf => exact (ih1 wf _).trans h1
                | none => exact h1
        | WhileStatement test body =>
          have h1 := eval_expression_env_length n test i.environment
          simp only [evaluate_statement, Statement.item]
          cases h : evaluate_expression n test i.environment with
          | mk env1 res =>
            rw [h] at h1
            cases res with
            | error err => exact h1
            | ok v =>
              dsimp only
              split
              · cases hb : evaluate_statement n body { i with environment := env1 } with
                | mk i2 res2 =>
                  have hbl := ih1 body { i with environment := env1 }
                  rw [hb] at hbl
                  cases res2 with
                  | some err => exact hbl.trans h1
                  | none => exact (ih1 _ i2).trans (hbl.trans h1)
              · exact h1
    · intro stmts i
      cases stmts with
      | nil => rfl
      | cons s rest =>
        simp only [run_statements]
        cases hes : evaluate_statement n s i with
        | mk i' e =>
          have h1 := ih1 s i
          rw [hes] at h1
          cases e with
          | none => exact (ih2 rest i').trans h1
          | some err => exact h1

/-- Claim C7 (fork/join balance): executing a `Block` leaves the
scope-stack depth unchanged on every exit path — the scope forked on
entry is joined exactly once, also when a child statement errors — and
the block's outcome (success or the first child error) is exactly the
children's outcome, propagated only after the join. Consequently every
statement, and every whole-program `interpret` run, preserves the
scope-stack depth. -/
theorem c7_block_fork_join_balanced (fuel : Nat) (stmts : List Statement) (ln : Nat)
    (i : Interpreter) :
    ((evaluate_statement (fuel + 1) (.mk (.Block stmts) ln) i).1).environment.stack.length
      = i.environment.stack.length
    ∧ (evaluate_statement (fuel + 1) (.mk (.Block stmts) ln) i).2
      = (run_statements fuel stmts { i with environment := i.environment.fork }).2
    ∧ (∀ (stmt : Statement) (j : Interpreter),
        ((evaluate_statement fuel stmt j).1).environment.stack.length
          = j.environment.stack.length)
    ∧ (∀ (program : List Statement) (j : Interpreter),
        ((Interpreter.interpret fuel program j).1).environment.stack.length
          = j.environment.stack.length) := by
  refine ⟨(eval_statement_env_length (fuel + 1)).1 _ i, ?_,
    fun stmt j => (eval_statement_env_length fuel).1 stmt j,
    fun program j => (eval_statement_env_length fuel).2 program j⟩
  simp only [evaluate_statement, Statement.item]
  have h2 := (eval_statement_env_length fuel).2 stmts { i with environment := i.environment.fork }
  cases hrs : run_statements fuel stmts { i with environment := i.environment.fork } with
  | mk i2 result =>
    rw [hrs] at h2
    dsimp only at h2 ⊢
    simp only [Environment.fork, List.length_cons] at h2
    cases hstk : i2.environment.stack with
    | nil => rw [hstk] at h2; simp at h2
    | cons top rest => simp only [Environment.join, hstk]

/-- Claim C2, behaviour of the code at the failing input: scanning the
string literal `"a\⏎b"` (backslash, literal newline, then `b`) does not
yield the value `"ab"` — the `continue` in the `'\n'` escape arm skips
the `is_escape = false` reset, so the `b` after the line-continuation is
still read as an escape character and scanning fails with
`Invalid escape char: b`. -/
theorem c2_continuation_escape_error :
    Scanner.match_string 10 ⟨['a', '\\', '\n', 'b', '"'], 0, 1⟩
      = (.error (.ScannerError ⟨"Invalid escape char: b", 2, ""⟩),
         ⟨['a', '\\', '\n', 'b', '"'], 4, 2⟩)
    ∧ Scanner.scan_tokens 20 (Scanner.new "\"a\\\nb\"")
      = .error [.ScannerError ⟨"Invalid escape char: b", 2, ""⟩,
                .ScannerError ⟨"Unterminated string literal", 2, ""⟩] := by
  constructor
  · rfl
  · rfl

/-- Claim C8 (REPL fallback error precedence): when `run` is called with
`allow_top_level_expr` and the parse fails with error `e`, the whole
token buffer is re-parsed from the start by
`parse_top_level_expression`, which is exactly the expression parser
wrapped in an implicit `PrintStatement`; if the fallback succeeds its
program is interpreted, and if it also fails `run` returns the original
error `e`, not the fallback's. -/
theorem c8_fallback_error_precedence
    (fuel : Nat) (src : String) (interp : Interpreter) (toks : List TokenMeta) (e : String)
    (hscan : Scanner.scan_tokens fuel (Scanner.new src) = .ok toks)
    (hparse : Parser.parse fuel (Parser.new toks) = .error e) :
    (∀ e' : String,
      Parser.parse_top_level_expression fuel ((Parser.new toks).reset) = .error e' →
        run fuel src interp true = (interp, some e))
    ∧ (∀ (prog : List Statement) (p' : Parser),
      Parser.parse_top_level_expression fuel ((Parser.new toks).reset) = .ok (prog, p') →
        run fuel src interp true = Interpreter.interpret fuel prog interp)
    ∧ (∀ (n : Nat) (p : Parser),
        Parser.parse_top_level_expression (n + 1) p
          = match Parser.expression n p with
            | .ok (expr, p1) => .ok ([Statement.mk (.PrintStatement expr) 1], p1)
            | .error err => .error err) := by
  refine ⟨?_, ?_, ?_⟩
  · intro e' hfb
    unfold run
    rw [hscan]
    dsimp only
    rw [hparse]
    dsimp only
    rw [hfb]
    rfl
  · intro prog p' hfb
    unfold run
    rw [hscan]
    dsimp only
    rw [hparse]
    dsimp only
    rw [hfb]
    rfl
  · intro n p
    cases hE : Parser.expression n p with
    | ok pr =>
      cases pr with
      | mk expr p1 =>
        simp [Parser.parse_top_level_expression, hE, Bind.bind, Except.bind, pure,
          Except.pure]
    | error err =>
      simp [Parser.parse_top_level_expression, hE, Bind.bind, Except.bind, pure,
        Except.pure]

/-- Witness for C8: for the input `var;` the parse error is
`EOF: Expected identifier but got ;`, the fallback expression parse
fails too (with `Line 1: Failed to parse var; expected expression`),
and `run` reports the original error. -/
theorem c8_witness :
    run 20 "var;" Interpreter.new true
      = (Interpreter.new, some "EOF: Expected identifier but got ;") := by
  have h := c8_fallback_error_precedence 20 "var;" Interpreter.new
    [⟨.Var, 1⟩, ⟨.Semicolon, 1⟩] "EOF: Expected identifier but got ;" rfl rfl
  exact h.1 "Line 1: Failed to parse var; expected expression" rfl

/-- Claim C1, behaviour of the code at the failing inputs: the claimed
desugaring fails exactly when the initializer is present and the
condition slot is empty. A present initializer consumes its own
terminating `;` (`var_declaration` and `expression_statement` both end
in a propagating semicolon consume), and `for_statement`'s first
dropped `consume!(self, Token::Semicolon);` then swallows the
empty-condition `;` itself, so the condition slot reads on past it.

First conjunct: `for (x = 1;; x = x + 1) print x;` parses successfully
to `{ x = 1; while (x = x + 1) print x; }` — the update expression
becomes the while-test (not the literal `true`) and no update statement
is appended to the body. Second conjunct: `for (var i = 0;;) {}` is a
parse error rather than a desugaring with test `true`. Third conjunct:
with no initializer the claimed behaviour does hold — `for (;;) print 1;`
desugars to `{ while (true) print 1; }` — locating the slip precisely. -/
theorem c1_condition_shift_bug :
    Parser.for_statement 30 (Parser.new
        [⟨.For, 1⟩, ⟨.LeftParen, 1⟩, ⟨.Literal (.Identifier "x"), 1⟩, ⟨.Equal, 1⟩,
         ⟨.Literal (.Integer 1), 1⟩, ⟨.Semicolon, 1⟩, ⟨.Semicolon, 1⟩,
         ⟨.Literal (.Identifier "x"), 1⟩, ⟨.Equal, 1⟩, ⟨.Literal (.Identifier "x"), 1⟩,
         ⟨.Plus, 1⟩, ⟨.Literal (.Integer 1), 1⟩, ⟨.RightParen, 1⟩, ⟨.Print, 1⟩,
         ⟨.Literal (.Identifier "x"), 1⟩, ⟨.Semicolon, 1⟩])
      = .ok (Statement.mk (.Block
          [Statement.mk (.ExpressionStatement (Expression.mk (.Assignment "x"
              (Expression.mk (.Literal (.Integer 1)) 1)) 1)) 1,
           Statement.mk (.WhileStatement
             (Expression.mk (.Assignment "x"
               (Expression.mk (.Binary (Expression.mk (.Variable "x") 1) .Plus
                 (Expression.mk (.Literal (.Integer 1)) 1)) 1)) 1)
             (Statement.mk (.PrintStatement (Expression.mk (.Variable "x") 1)) 1)) 1]) 1,
        ⟨[⟨.For, 1⟩, ⟨.LeftParen, 1⟩, ⟨.Literal (.Identifier "x"), 1⟩, ⟨.Equal, 1⟩,
          ⟨.Literal (.Integer 1), 1⟩, ⟨.Semicolon, 1⟩, ⟨.Semicolon, 1⟩,
          ⟨.Literal (.Identifier "x"), 1⟩, ⟨.Equal, 1⟩, ⟨.Literal (.Identifier "x"), 1⟩,
          ⟨.Plus, 1⟩, ⟨.Literal (.Integer 1), 1⟩, ⟨.RightParen, 1⟩, ⟨.Print, 1⟩,
          ⟨.Literal (.Identifier "x"), 1⟩, ⟨.Semicolon, 1⟩], 16⟩)
    ∧ Parser.for_statement 30 (Parser.new
        [⟨.For, 1⟩, ⟨.LeftParen, 1⟩, ⟨.Var, 1⟩, ⟨.Literal (.Identifier "i"), 1⟩,
         ⟨.Equal, 1⟩, ⟨.Literal (.Integer 0), 1⟩, ⟨.Semicolon, 1⟩, ⟨.Semicolon, 1⟩,
         ⟨.RightParen, 1⟩, ⟨.LeftBrace, 1⟩, ⟨.RightBrace, 1⟩])
      = .error "Line 1: Failed to parse ); expected expression"
    ∧ Parser.for_statement 30 (Parser.new
        [⟨.For, 1⟩, ⟨.LeftParen, 1⟩, ⟨.Semicolon, 1⟩, ⟨.Semicolon, 1⟩, ⟨.RightParen, 1⟩,
         ⟨.Print, 1⟩, ⟨.Literal (.Integer 1), 1⟩, ⟨.Semicolon, 1⟩])
      = .ok (Statement.mk (.Block [Statement.mk (.WhileStatement
            (Expression.mk (.Literal .True) 1)
            (Statement.mk (.PrintStatement (Expression.mk (.Literal (.Integer 1)) 1)) 1)) 1]) 1,
        ⟨[⟨.For, 1⟩, ⟨.LeftParen, 1⟩, ⟨.Semicolon, 1⟩, ⟨.Semicolon, 1⟩, ⟨.RightParen, 1⟩,
          ⟨.Print, 1⟩, ⟨.Literal (.Integer 1), 1⟩, ⟨.Semicolon, 1⟩], 8⟩) := by
  refine ⟨?_, ?_, ?_⟩
  · rfl
  · rfl
  · rfl

end Rlox
